import Mathlib

/-!
# Concourse execution core: worker address resolver and exec engine

A shallow embedding of `worker/transport/round_tripper.go` and
`engine/exec_engine.go`, followed by the properties established about them.

Conventions of the embedding:

* a Go pointer that may be nil is an `Option`;
* an interface whose implementation lives outside the two files (the store,
  the inner transport, the step factory, the delegate, the JSON codec) is a
  function parameter, or a free constructor recording the call;
* calls made on collaborators are recorded in a trace, so that "how many times
  was X called" is a statement about a list;
* a nil dereference is the outcome `panicked`; a blocking channel send that
  cannot proceed is `none`.
-/

namespace Transport

/-! ## Data model of the resolver -/

/-- Worker states of `dbng` (the resolver only compares against `stalled`). -/
inductive WorkerState where
  | running
  | stalled
  | landing
  | landed
  | retiring
  deriving DecidableEq, Repr

/-- The two fields of `dbng.Worker` that `RoundTrip` reads. -/
structure Worker where
  State : WorkerState
  GardenAddr : Option String
  deriving DecidableEq, Repr

/-- Go `error` values seen by the resolver: its own three resolution errors, and
errors produced by a collaborator (store or inner transport), kept opaque. -/
inductive Error where
  | ErrMissingWorker (WorkerName : String)
  | ErrWorkerStalled (WorkerName : String)
  | ErrWorkerAddrIsMissing (WorkerName : String)
  | external (msg : String)
  deriving DecidableEq, Repr

/-- The `url.URL` value a request points to. -/
structure URL where
  Scheme : String
  Host : String
  Path : String
  RawQuery : String
  deriving DecidableEq, Repr

/-- The `http.Request` value; `URL` is the value `request.URL` points to (the
pointer is non-nil in every request an HTTP client sends). -/
structure Request where
  Method : String
  URL : URL
  Header : List (String × String)
  Body : String
  deriving DecidableEq, Repr

/-- The `http.Response` value. -/
structure Response where
  StatusCode : Nat
  Body : String
  deriving DecidableEq, Repr

/-- Result triple of `TransportDB.GetWorker`: `(savedWorker, found, err)`. -/
structure GetWorkerResult where
  savedWorker : Worker
  found : Bool
  err : Option Error
  deriving DecidableEq, Repr

/-- The store, as seen during one call: worker name to `GetWorker` result. -/
abbrev TransportDB := String → GetWorkerResult

/-- The inner `http.RoundTripper`: request to `(response, err)`. -/
abbrev InnerRoundTripper := Request → Option Response × Option Error

/-- Calls that `RoundTrip` makes on its collaborators, in program order. -/
inductive Event where
  | GetWorker (workerName : String)
  | InnerRoundTrip (request : Request)
  deriving DecidableEq, Repr

/-- How a call of `RoundTrip` ends: it returns `(response, err)`, or it panics on
the nil dereference `*c.cachedHost`. -/
inductive Outcome where
  | returned (response : Option Response) (err : Option Error)
  | panicked
  deriving DecidableEq, Repr

/-- The mutable part of the Go struct `roundTripper` and its worker name; `db`
and `innerRoundTripper` are passed to `RoundTrip` as parameters. -/
structure roundTripper where
  workerName : String
  cachedHost : Option String
  deriving DecidableEq, Repr

/-- Everything observable after one `RoundTrip`: the resolver afterwards, the
outcome, the collaborator calls, and the caller's request object afterwards. -/
structure Result where
  c : roundTripper
  outcome : Outcome
  trace : List Event
  callerRequest : Request
  deriving DecidableEq, Repr

/-- Constructor `NewRoundTripper(workerName, workerHost, db, inner)`. -/
def NewRoundTripper (workerName : String) (workerHost : Option String) : roundTripper :=
  { workerName := workerName, cachedHost := workerHost }

/-- Lines 51-62 of `RoundTrip`: copy the URL, overwrite the copy's host with
`*c.cachedHost`, copy the request, point the copy at the new URL, forward it,
and clear the cache when the inner transport reports an error. -/
def forward (inner : InnerRoundTripper) (c : roundTripper) (trace : List Event)
    (request : Request) : Result :=
  let updatedURL := request.URL
  match c.cachedHost with
  | none =>
    { c := c, outcome := Outcome.panicked, trace := trace, callerRequest := request }
  | some host =>
    let updatedURL := { updatedURL with Host := host }
    let updatedRequest := request
    let updatedRequest := { updatedRequest with URL := updatedURL }
    let (response, err) := inner updatedRequest
    let trace := trace ++ [Event.InnerRoundTrip updatedRequest]
    let c := if err ≠ none then { c with cachedHost := none } else c
    { c := c, outcome := Outcome.returned response err, trace := trace,
      callerRequest := request }

/-- The method `(*roundTripper).RoundTrip`, line by line. The guard of line 30 is
`c.cachedHost != nil`, as in the source. -/
def RoundTrip (db : TransportDB) (inner : InnerRoundTripper) (c : roundTripper)
    (request : Request) : Result :=
  if c.cachedHost ≠ none then
    let r := db c.workerName
    let trace := [Event.GetWorker c.workerName]
    if r.err ≠ none then
      { c := c, outcome := Outcome.returned none r.err, trace := trace,
        callerRequest := request }
    else if !r.found then
      { c := c, outcome := Outcome.returned none (some (Error.ErrMissingWorker c.workerName)),
        trace := trace, callerRequest := request }
    else if r.savedWorker.State = WorkerState.stalled then
      { c := c, outcome := Outcome.returned none (some (Error.ErrWorkerStalled c.workerName)),
        trace := trace, callerRequest := request }
    else if r.savedWorker.GardenAddr = none then
      { c := c,
        outcome := Outcome.returned none (some (Error.ErrWorkerAddrIsMissing c.workerName)),
        trace := trace, callerRequest := request }
    else
      forward inner { c with cachedHost := r.savedWorker.GardenAddr } trace request
  else
    forward inner c [] request

/-- Number of store reads in a trace. -/
def storeReads (t : List Event) : Nat :=
  (t.filter fun e => match e with | Event.GetWorker _ => true | _ => false).length

/-- Number of inner-transport invocations in a trace. -/
def innerCalls (t : List Event) : Nat :=
  (t.filter fun e => match e with | Event.InnerRoundTrip _ => true | _ => false).length

/-- The requests handed to the inner transport, in order. -/
def forwarded (t : List Event) : List Request :=
  t.filterMap fun e => match e with | Event.InnerRoundTrip r => some r | _ => none

/-- A call failed at the transport level: the inner transport was invoked and
the call returned its error. -/
def transportFailed (r : Result) : Prop :=
  innerCalls r.trace = 1 ∧ ∃ resp e, r.outcome = Outcome.returned resp (some e)

/-! ## Concrete collaborators and inputs -/

/-- A request `GET http://api/containers`. -/
def exampleRequest : Request :=
  { Method := "GET",
    URL := { Scheme := "http", Host := "api", Path := "/containers", RawQuery := "" },
    Header := [("Accept", "application/json")], Body := "" }

/-- A store in which every worker is found, running, and registered at `addr`. -/
def runningAt (addr : String) : TransportDB := fun _ =>
  { savedWorker := { State := WorkerState.running, GardenAddr := some addr },
    found := true, err := none }

/-- A store whose read fails: zero worker, not found, and an error. -/
def failingStore : TransportDB := fun _ =>
  { savedWorker := { State := WorkerState.running, GardenAddr := none },
    found := false, err := some (Error.external "store unavailable") }

/-- An inner transport that refuses every connection. -/
def refusing : InnerRoundTripper := fun _ =>
  (none, some (Error.external "connection refused"))

/-- An inner transport that answers every request with status 200. -/
def serving : InnerRoundTripper := fun _ =>
  (some { StatusCode := 200, Body := "" }, none)

end Transport

namespace Engine

/-! ## Data model of the exec engine -/

/-- The type `atc.Source` (an untyped key/value map), kept as data. -/
abbrev Source := List (String × String)

/-- The type `atc.Params` (an untyped key/value map), kept as data. -/
abbrev Params := List (String × String)

/-- The type `atc.Version`; `none` is the nil map (no version pinned). -/
abbrev Version := Option (List (String × String))

/-- One accepted prior outcome of a conditional. -/
inductive Condition where
  | success
  | failure
  deriving DecidableEq

/-- The type `atc.Conditions`. -/
abbrev Conditions := List Condition

/-- The type `atc.BuildConfig`, the inline task configuration, kept as data. -/
structure BuildConfig where
  Image : String
  Params : List (String × String)
  Run : String
  deriving DecidableEq

/-- The fields of `atc.ExecutePlan` read by `buildStep`; `Config` is a pointer. -/
structure ExecutePlan where
  Privileged : Bool
  ConfigPath : String
  Config : Option BuildConfig
  deriving DecidableEq

/-- The fields of `atc.GetPlan` read by `buildStep`. -/
structure GetPlan where
  Type_ : String
  Name : String
  Resource : String
  Source : Source
  Params : Params
  Version : Version
  deriving DecidableEq

/-- The fields of `atc.PutPlan` read by `buildStep`. -/
structure PutPlan where
  Type_ : String
  Resource : String
  Source : Source
  Params : Params
  deriving DecidableEq

/-- The struct `atc.Plan`: six pointer fields, each possibly nil. `Aggregate`
points to a map from child name to child plan, given by its entries (a Go map
has at most one entry per name; a nil map and an empty map both have no
entries); `Compose` points to the pair `(A, B)`; `Conditional` to
`(Conditions, Plan)`. -/
inductive Plan where
  | mk (Aggregate : Option (List (String × Plan))) (Compose : Option (Plan × Plan))
      (Conditional : Option (Conditions × Plan)) (Execute : Option ExecutePlan)
      (Get : Option GetPlan) (Put : Option PutPlan)

/-- The plan with every payload nil. -/
def Plan.empty : Plan := Plan.mk none none none none none none

/-- Data attached to a logger session by `buildStep`. -/
inductive LagerData where
  | none
  | on (conditions : Conditions)
  | name (name : String)
  deriving DecidableEq

/-- One `logger.Session(task, data)` frame. -/
structure LagerSession where
  task : String
  data : LagerData
  deriving DecidableEq

/-- A `lager.Logger`, identified by its chain of sessions, outermost first. -/
abbrev Logger := List LagerSession

/-- The call `logger.Session(task, data)`. -/
def Logger.Session (logger : Logger) (task : String) (data : LagerData) : Logger :=
  logger ++ [{ task := task, data := data }]

/-- The type `exec.SessionID`. -/
abbrev SessionID := String

/-- The type `exec.BuildConfigSource` with its three implementations. -/
inductive BuildConfigSource where
  | StaticConfigSource (Config : BuildConfig)
  | FileConfigSource (Path : String)
  | MergedConfigSource (A B : BuildConfigSource)
  deriving DecidableEq

/-- The type `atc.ResourceConfig` as built by `buildStep`. -/
structure ResourceConfig where
  Name : String
  Type_ : String
  Source : Source
  deriving DecidableEq

/-- A step-level delegate, identified by the accessor of the build's delegate
that returned it and that accessor's arguments; `buildID` is the identity the
delegate factory was given. -/
inductive StepDelegate where
  | ExecutionDelegate (buildID : Int) (logger : Logger)
  | InputDelegate (buildID : Int) (logger : Logger) (plan : GetPlan)
  | OutputDelegate (buildID : Int) (logger : Logger) (plan : PutPlan)
  deriving DecidableEq

/-- The type `exec.Step`. `Identity`, `Aggregate`, `Compose` and `Conditional`
are the values `buildStep` constructs itself; `Execute`, `Get` and `Put` stand
for the step returned by the factory method of that name and record the
arguments of the call. -/
inductive Step where
  | Identity
  | Aggregate (steps : List (String × Step))
  | Compose (a b : Step)
  | Conditional (Conditions : Conditions) (Step : Step)
  | Execute (sessionID : SessionID) (delegate : StepDelegate) (privileged : Bool)
      (configSource : BuildConfigSource)
  | Get (sessionID : SessionID) (delegate : StepDelegate) (config : ResourceConfig)
      (params : Params) (version : Version)
  | Put (sessionID : SessionID) (delegate : StepDelegate) (config : ResourceConfig)
      (params : Params)

/-- Values of `os.Signal`. -/
inductive Signal where
  | Kill
  | Interrupt
  | other (n : Nat)
  deriving DecidableEq

/-- A buffered Go channel of signals: its capacity and the queued values. -/
structure SignalChan where
  cap : Nat
  buf : List Signal
  deriving DecidableEq

/-- The call `make(chan os.Signal, n)`. -/
def makeChan (n : Nat) : SignalChan := { cap := n, buf := [] }

/-- The struct `execMetadata`. -/
structure execMetadata where
  Plan : Plan

/-- The fields of `db.Build` read by the engine. -/
structure DBBuild where
  ID : Int
  EngineMetadata : String
  deriving DecidableEq

/-- The struct `execBuild`; `delegate` is the build identity handed to the
delegate factory, `db` and `factory` are shared collaborators. -/
structure execBuild where
  buildID : Int
  delegate : Int
  signals : SignalChan
  metadata : execMetadata

/-- The JSON codec of `encoding/json` at type `execMetadata`. -/
structure Codec where
  Marshal : execMetadata → Except String String
  Unmarshal : String → Except String execMetadata

/-! ## Engine operations -/

/-- The method `(*execEngine).Name`. -/
def Name : String := "exec.v1"

/-- The method `(*execEngine).CreateBuild`: returns `(build, nil)`. -/
def CreateBuild (model : DBBuild) (plan : Plan) : execBuild × Option String :=
  ({ buildID := model.ID, delegate := model.ID, metadata := { Plan := plan },
     signals := makeChan 1 }, none)

/-- Modelled from the spec: the kinds of Go `error` a caller of `LookupBuild` can
tell apart. `CorruptMetadata` is the error named by the specification of
`lookupBuild`; no source file declares or constructs it. `unmarshal` is an error
value produced by `json.Unmarshal`. -/
inductive EngineError where
  | unmarshal (err : String)
  | CorruptMetadata (cause : String)
  deriving DecidableEq

/-- The method `(*execEngine).LookupBuild`: `(nil, err)` with the error of
`json.Unmarshal` when unmarshalling fails, else `(build, nil)`. -/
def LookupBuild (codec : Codec) (model : DBBuild) : Except EngineError execBuild :=
  match codec.Unmarshal model.EngineMetadata with
  | Except.error err => Except.error (EngineError.unmarshal err)
  | Except.ok metadata =>
    Except.ok { buildID := model.ID, delegate := model.ID, metadata := metadata,
                signals := makeChan 1 }

/-- The method `(*execBuild).Metadata`; `none` is the panic on a marshal error. -/
def Metadata (codec : Codec) (build : execBuild) : Option String :=
  match codec.Marshal build.metadata with
  | Except.error _ => none
  | Except.ok payload => some payload

/-- The method `(*execBuild).Abort`: the send `build.signals <- os.Kill`, then
`return nil`. A send on a buffered channel proceeds when the buffer has room;
otherwise the caller blocks (`none`) until a receiver takes a value. -/
def Abort (build : execBuild) : Option (execBuild × Option String) :=
  if build.signals.buf.length < build.signals.cap then
    some ({ build with signals := { build.signals with buf := build.signals.buf ++ [Signal.Kill] } },
      none)
  else
    none

/-- The method `(*execBuild).executeSessionID`. -/
def executeSessionID (build : execBuild) : SessionID :=
  "build-" ++ toString build.buildID ++ "-execute"

/-- The method `(*execBuild).inputSessionID`. -/
def inputSessionID (build : execBuild) (inputName : String) : SessionID :=
  "build-" ++ toString build.buildID ++ "-input-" ++ inputName

/-- The method `(*execBuild).outputSessionID`. -/
def outputSessionID (build : execBuild) (outputName : String) : SessionID :=
  "build-" ++ toString build.buildID ++ "-output-" ++ outputName

/-- The fields of `atc.HijackProcessSpec`, kept as data. -/
structure HijackProcessSpec where
  Path : String
  Args : List String
  Privileged : Bool
  deriving DecidableEq

/-- The struct `HijackProcessIO`: the three streams, each named by a handle. -/
structure HijackProcessIO where
  Stdin : String
  Stdout : String
  Stderr : String
  deriving DecidableEq

/-- The struct `exec.IOConfig`. -/
structure IOConfig where
  Stdin : String
  Stdout : String
  Stderr : String
  deriving DecidableEq

/-- The method `(*execBuild).Hijack`; `factoryHijack` is `build.factory.Hijack`,
and the result is whatever pair `(HijackedProcess, error)` it returns. -/
def Hijack {α : Type} (factoryHijack : SessionID → IOConfig → HijackProcessSpec → α)
    (build : execBuild) (spec : HijackProcessSpec) ( io : HijackProcessIO) : α :=
  let ioConfig : IOConfig := { Stdin := io.Stdin, Stdout := io.Stdout, Stderr := io.Stderr }
  factoryHijack (executeSessionID build) ioConfig spec

/-! ## The plan compiler -/

mutual
/-- The method `(*execBuild).buildStep`. The chain of `if plan.X != nil` tests is
the order of the match arms: Aggregate, Compose, Conditional, Execute, Get, Put,
and `exec.Identity` when all are nil. -/
def buildStep (build : execBuild) : Plan → Logger → Step
  | Plan.mk (some aggregate) _ _ _ _ _, logger =>
    let logger := Logger.Session logger "aggregate" LagerData.none
    Step.Aggregate (buildAggregate build aggregate logger)
  | Plan.mk none (some (A, B)) _ _ _ _, logger =>
    Step.Compose (buildStep build A logger) (buildStep build B logger)
  | Plan.mk none none (some (conditions, plan)) _ _ _, logger =>
    let logger := Logger.Session logger "conditional" (LagerData.on conditions)
    Step.Conditional conditions (buildStep build plan logger)
  | Plan.mk none none none (some execute) _ _, logger =>
    let logger := Logger.Session logger "execute" LagerData.none
    match execute.Config, decide (execute.ConfigPath ≠ "") with
    | some config, true =>
      Step.Execute (executeSessionID build)
        (StepDelegate.ExecutionDelegate build.delegate logger) execute.Privileged
        (BuildConfigSource.MergedConfigSource
          (BuildConfigSource.FileConfigSource execute.ConfigPath)
          (BuildConfigSource.StaticConfigSource config))
    | some config, false =>
      Step.Execute (executeSessionID build)
        (StepDelegate.ExecutionDelegate build.delegate logger) execute.Privileged
        (BuildConfigSource.StaticConfigSource config)
    | none, true =>
      Step.Execute (executeSessionID build)
        (StepDelegate.ExecutionDelegate build.delegate logger) execute.Privileged
        (BuildConfigSource.FileConfigSource execute.ConfigPath)
    | none, false => Step.Identity
  | Plan.mk none none none none (some get) _, logger =>
    let logger := Logger.Session logger "get" (LagerData.name get.Name)
    Step.Get (inputSessionID build get.Name)
      (StepDelegate.InputDelegate build.delegate logger get)
      { Name := get.Resource, Type_ := get.Type_, Source := get.Source }
      get.Params get.Version
  | Plan.mk none none none none none (some put), logger =>
    let logger := Logger.Session logger "put" (LagerData.name put.Resource)
    Step.Put (outputSessionID build put.Resource)
      (StepDelegate.OutputDelegate build.delegate logger put)
      { Name := put.Resource, Type_ := put.Type_, Source := put.Source }
      put.Params
  | Plan.mk none none none none none none, _ => Step.Identity
/-- The loop `for name, innerPlan := range *plan.Aggregate` of `buildStep`: one
assignment `step[name] = build.buildStep(innerPlan, logger.Session(name))` per
entry of the map. -/
def buildAggregate (build : execBuild) : List (String × Plan) → Logger → List (String × Step)
  | [], _ => []
  | (name, innerPlan) :: rest, logger =>
    (name, buildStep build innerPlan (Logger.Session logger name LagerData.none))
      :: buildAggregate build rest logger
end

mutual
/-- Nesting depth of a plan over all its payloads, counting the node itself. -/
def planDepth : Plan → Nat
  | Plan.mk aggregate compose conditional _ _ _ =>
    1 + max (aggregateDepth aggregate) (max (composeDepth compose) (conditionalDepth conditional))
/-- Depth below the `Aggregate` pointer. -/
def aggregateDepth : Option (List (String × Plan)) → Nat
  | none => 0
  | some entries => entriesDepth entries
/-- Depth below the `Compose` pointer. -/
def composeDepth : Option (Plan × Plan) → Nat
  | none => 0
  | some (A, B) => max (planDepth A) (planDepth B)
/-- Depth below the `Conditional` pointer. -/
def conditionalDepth : Option (Conditions × Plan) → Nat
  | none => 0
  | some (_, plan) => planDepth plan
/-- Largest depth among the children of an aggregate. -/
def entriesDepth : List (String × Plan) → Nat
  | [] => 0
  | (_, innerPlan) :: rest => max (planDepth innerPlan) (entriesDepth rest)
end

mutual
/-- The method `buildStep` run with a bound on the depth of nested calls: every
call of `buildStep` consumes one unit, and `none` means the bound was hit
before the call returned. -/
def buildStepFuel (build : execBuild) : Nat → Plan → Logger → Option Step
  | 0, _, _ => none
  | fuel + 1, Plan.mk (some aggregate) _ _ _ _ _, logger =>
    let logger := Logger.Session logger "aggregate" LagerData.none
    match buildAggregateFuel build fuel aggregate logger with
    | some steps => some (Step.Aggregate steps)
    | none => none
  | fuel + 1, Plan.mk none (some (A, B)) _ _ _ _, logger =>
    match buildStepFuel build fuel A logger, buildStepFuel build fuel B logger with
    | some a, some b => some (Step.Compose a b)
    | _, _ => none
  | fuel + 1, Plan.mk none none (some (conditions, plan)) _ _ _, logger =>
    let logger := Logger.Session logger "conditional" (LagerData.on conditions)
    match buildStepFuel build fuel plan logger with
    | some step => some (Step.Conditional conditions step)
    | none => none
  | _ + 1, Plan.mk none none none (some execute) _ _, logger =>
    let logger := Logger.Session logger "execute" LagerData.none
    match execute.Config, decide (execute.ConfigPath ≠ "") with
    | some config, true =>
      some (Step.Execute (executeSessionID build)
        (StepDelegate.ExecutionDelegate build.delegate logger) execute.Privileged
        (BuildConfigSource.MergedConfigSource
          (BuildConfigSource.FileConfigSource execute.ConfigPath)
          (BuildConfigSource.StaticConfigSource config)))
    | some config, false =>
      some (Step.Execute (executeSessionID build)
        (StepDelegate.ExecutionDelegate build.delegate logger) execute.Privileged
        (BuildConfigSource.StaticConfigSource config))
    | none, true =>
      some (Step.Execute (executeSessionID build)
        (StepDelegate.ExecutionDelegate build.delegate logger) execute.Privileged
        (BuildConfigSource.FileConfigSource execute.ConfigPath))
    | none, false => some Step.Identity
  | _ + 1, Plan.mk none none none none (some get) _, logger =>
    let logger := Logger.Session logger "get" (LagerData.name get.Name)
    some (Step.Get (inputSessionID build get.Name)
      (StepDelegate.InputDelegate build.delegate logger get)
      { Name := get.Resource, Type_ := get.Type_, Source := get.Source }
      get.Params get.Version)
  | _ + 1, Plan.mk none none none none none (some put), logger =>
    let logger := Logger.Session logger "put" (LagerData.name put.Resource)
    some (Step.Put (outputSessionID build put.Resource)
      (StepDelegate.OutputDelegate build.delegate logger put)
      { Name := put.Resource, Type_ := put.Type_, Source := put.Source }
      put.Params)
  | _ + 1, Plan.mk none none none none none none, _ => some Step.Identity
/-- The aggregate loop of `buildStep` under the same bound. -/
def buildAggregateFuel (build : execBuild) :
    Nat → List (String × Plan) → Logger → Option (List (String × Step))
  | _, [], _ => some []
  | fuel, (name, innerPlan) :: rest, logger =>
    match buildStepFuel build fuel innerPlan (Logger.Session logger name LagerData.none),
      buildAggregateFuel build fuel rest logger with
    | some step, some steps => some ((name, step) :: steps)
    | _, _ => none
end

/-! ## The execution driver -/

/-- What one iteration of the `select` in `Resume` receives: the exit status of
the step-tree process from `exited`, or a signal from `build.signals`. -/
inductive Received where
  | exited (err : Option String)
  | signal (sig : Signal)
  deriving DecidableEq

/-- Calls that `Resume` makes on its collaborators, in program order. -/
inductive Call where
  | Using (step : Step)
  | Background
  | Wait
  | Signal (sig : Signal)
  | Aborted (logger : Logger)
  | Finish (logger : Logger) (err : Option String)
  | Release

/-- A run of `Resume`: the calls it made, and whether it returned (it does not
return while the `select` waits for a value that never comes). -/
structure ResumeRun where
  calls : List Call
  returned : Bool

/-- The `for { select { ... } }` loop of `Resume` over the values it receives, in
the order in which the `select` receives them. -/
def resumeLoop (logger : Logger) : List Received → List Call × Bool
  | [] => ([], false)
  | Received.exited err :: _ =>
    ([Call.Finish (Logger.Session logger "finish" LagerData.none) err], true)
  | Received.signal sig :: rest =>
    let (calls, returned) := resumeLoop logger rest
    ([Call.Signal sig] ++ (if sig = Signal.Kill then [Call.Aborted logger] else []) ++ calls,
      returned)

/-- The method `(*execBuild).Resume`; the deferred `source.Release()` runs when
the method returns. -/
def Resume (build : execBuild) (logger : Logger) (received : List Received) : ResumeRun :=
  let step := buildStep build build.metadata.Plan logger
  let (calls, returned) := resumeLoop logger received
  { calls := [Call.Using step, Call.Background, Call.Wait] ++ calls
      ++ (if returned then [Call.Release] else []),
    returned := returned }

/-- Number of invocations of the delegate hook `Aborted` in a list of calls. -/
def abortedCalls (calls : List Call) : Nat :=
  (calls.filter fun c => match c with | Call.Aborted _ => true | _ => false).length

/-- A run in which `n` kill signals are received and then the step tree exits. -/
def killsThenExit (n : Nat) (err : Option String) : List Received :=
  List.replicate n (Received.signal Signal.Kill) ++ [Received.exited err]

/-- Number of kill signals received before the step tree exits. -/
def killsBeforeExit : List Received → Nat
  | [] => 0
  | Received.exited _ :: _ => 0
  | Received.signal sig :: rest => (if sig = Signal.Kill then 1 else 0) + killsBeforeExit rest

/-! ## Shapes of step trees and of plans -/

/-- Node kinds and child structure of a step tree. -/
inductive Shape where
  | Identity
  | Execute
  | Get
  | Put
  | Aggregate (children : List (String × Shape))
  | Compose (a b : Shape)
  | Conditional (inner : Shape)

mutual
/-- The shape of a step tree: the kind of every node and its children. -/
def stepShape : Step → Shape
  | Step.Identity => Shape.Identity
  | Step.Aggregate steps => Shape.Aggregate (stepsShape steps)
  | Step.Compose a b => Shape.Compose (stepShape a) (stepShape b)
  | Step.Conditional _ step => Shape.Conditional (stepShape step)
  | Step.Execute _ _ _ _ => Shape.Execute
  | Step.Get _ _ _ _ _ => Shape.Get
  | Step.Put _ _ _ _ => Shape.Put
/-- Shapes of the named children of an aggregate step. -/
def stepsShape : List (String × Step) → List (String × Shape)
  | [] => []
  | (name, step) :: rest => (name, stepShape step) :: stepsShape rest
end

/-- A plan with the contents of its leaf payloads forgotten: which of the six
pointers are set, the child names and children, and for an Execute payload
whether an inline config is set and whether the config path is non-empty. -/
inductive PlanSkeleton where
  | mk (Aggregate : Option (List (String × PlanSkeleton)))
      (Compose : Option (PlanSkeleton × PlanSkeleton))
      (Conditional : Option PlanSkeleton) (Execute : Option (Bool × Bool))
      (Get : Bool) (Put : Bool)

/-- Skeleton of an Execute payload: is the inline config set, is the config path
non-empty. -/
def executeSkeleton : Option ExecutePlan → Option (Bool × Bool)
  | none => none
  | some execute => some (execute.Config.isSome, decide (execute.ConfigPath ≠ ""))

mutual
/-- The skeleton of a plan. -/
def planSkeleton : Plan → PlanSkeleton
  | Plan.mk aggregate compose conditional execute get put =>
    PlanSkeleton.mk (aggregateSkeleton aggregate) (composeSkeleton compose)
      (conditionalSkeleton conditional) (executeSkeleton execute) get.isSome put.isSome
/-- Skeleton below the `Aggregate` pointer. -/
def aggregateSkeleton : Option (List (String × Plan)) → Option (List (String × PlanSkeleton))
  | none => none
  | some entries => some (entriesSkeleton entries)
/-- Skeleton below the `Compose` pointer. -/
def composeSkeleton : Option (Plan × Plan) → Option (PlanSkeleton × PlanSkeleton)
  | none => none
  | some (A, B) => some (planSkeleton A, planSkeleton B)
/-- Skeleton below the `Conditional` pointer. -/
def conditionalSkeleton : Option (Conditions × Plan) → Option PlanSkeleton
  | none => none
  | some (_, plan) => some (planSkeleton plan)
/-- Skeletons of the named children of an aggregate plan. -/
def entriesSkeleton : List (String × Plan) → List (String × PlanSkeleton)
  | [] => []
  | (name, innerPlan) :: rest => (name, planSkeleton innerPlan) :: entriesSkeleton rest
end

mutual
/-- The shape that compiling a plan with the given skeleton produces. -/
def skeletonShape : PlanSkeleton → Shape
  | PlanSkeleton.mk (some entries) _ _ _ _ _ => Shape.Aggregate (skeletonsShape entries)
  | PlanSkeleton.mk none (some (A, B)) _ _ _ _ => Shape.Compose (skeletonShape A) (skeletonShape B)
  | PlanSkeleton.mk none none (some inner) _ _ _ => Shape.Conditional (skeletonShape inner)
  | PlanSkeleton.mk none none none (some (config, path)) _ _ =>
    if config || path then Shape.Execute else Shape.Identity
  | PlanSkeleton.mk none none none none true _ => Shape.Get
  | PlanSkeleton.mk none none none none false true => Shape.Put
  | PlanSkeleton.mk none none none none false false => Shape.Identity
/-- Shapes for the named children of an aggregate skeleton. -/
def skeletonsShape : List (String × PlanSkeleton) → List (String × Shape)
  | [] => []
  | (name, inner) :: rest => (name, skeletonShape inner) :: skeletonsShape rest
end

/-! ## Observations on step trees, plans and runs -/

/-- Modelled from the spec: the source in the overriding position of a merged
config source. Package `exec` is not among the sources; by the specification a
merged source yields the fields of one source overridden by those of the other,
and `exec.MergedConfigSource` merges `B` over `A`. -/
def BuildConfigSource.overriding : BuildConfigSource → Option BuildConfigSource
  | BuildConfigSource.MergedConfigSource _ B => some B
  | _ => none

/-- Modelled from the spec: the source in the overridden position of a merged
config source (see `BuildConfigSource.overriding`). -/
def BuildConfigSource.overridden : BuildConfigSource → Option BuildConfigSource
  | BuildConfigSource.MergedConfigSource A _ => some A
  | _ => none

mutual
/-- Number of calls of a factory method (`Execute`, `Get`, `Put`) that produced
the steps of a tree: each such step is the result of exactly one call. -/
def factoryCalls : Step → Nat
  | Step.Identity => 0
  | Step.Aggregate steps => factoryCallsAggregate steps
  | Step.Compose a b => factoryCalls a + factoryCalls b
  | Step.Conditional _ step => factoryCalls step
  | Step.Execute _ _ _ _ => 1
  | Step.Get _ _ _ _ _ => 1
  | Step.Put _ _ _ _ => 1
/-- Factory calls behind the children of an aggregate step. -/
def factoryCallsAggregate : List (String × Step) → Nat
  | [] => 0
  | (_, step) :: rest => factoryCalls step + factoryCallsAggregate rest
end

mutual
/-- The delegates obtained from the accessors of the build's delegate
(`ExecutionDelegate`, `InputDelegate`, `OutputDelegate`) for the steps of a
tree: each factory step holds the result of exactly one accessor call. -/
def stepDelegates : Step → List StepDelegate
  | Step.Identity => []
  | Step.Aggregate steps => stepDelegatesAggregate steps
  | Step.Compose a b => stepDelegates a ++ stepDelegates b
  | Step.Conditional _ step => stepDelegates step
  | Step.Execute _ delegate _ _ => [delegate]
  | Step.Get _ delegate _ _ _ => [delegate]
  | Step.Put _ delegate _ _ => [delegate]
/-- Delegates behind the children of an aggregate step. -/
def stepDelegatesAggregate : List (String × Step) → List StepDelegate
  | [] => []
  | (_, step) :: rest => stepDelegates step ++ stepDelegatesAggregate rest
end

mutual
/-- Number of steps in a step tree. -/
def stepNodes : Step → Nat
  | Step.Identity => 1
  | Step.Aggregate steps => 1 + stepNodesAggregate steps
  | Step.Compose a b => 1 + stepNodes a + stepNodes b
  | Step.Conditional _ step => 1 + stepNodes step
  | Step.Execute _ _ _ _ => 1
  | Step.Get _ _ _ _ _ => 1
  | Step.Put _ _ _ _ => 1
/-- Number of steps below an aggregate step. -/
def stepNodesAggregate : List (String × Step) → Nat
  | [] => 0
  | (_, step) :: rest => stepNodes step + stepNodesAggregate rest
end

mutual
/-- Number of nodes of a plan tree, over all its payloads. -/
def planNodes : Plan → Nat
  | Plan.mk aggregate compose conditional _ _ _ =>
    1 + aggregateNodes aggregate + composeNodes compose + conditionalNodes conditional
/-- Plan nodes below the `Aggregate` pointer. -/
def aggregateNodes : Option (List (String × Plan)) → Nat
  | none => 0
  | some entries => entriesNodes entries
/-- Plan nodes below the `Compose` pointer. -/
def composeNodes : Option (Plan × Plan) → Nat
  | none => 0
  | some (A, B) => planNodes A + planNodes B
/-- Plan nodes below the `Conditional` pointer. -/
def conditionalNodes : Option (Conditions × Plan) → Nat
  | none => 0
  | some (_, plan) => planNodes plan
/-- Plan nodes among the children of an aggregate. -/
def entriesNodes : List (String × Plan) → Nat
  | [] => 0
  | (_, innerPlan) :: rest => planNodes innerPlan + entriesNodes rest
end

mutual
/-- Every node of the plan has at most one non-nil payload. -/
def singlePayload : Plan → Bool
  | Plan.mk aggregate compose conditional execute get put =>
    decide (aggregate.isSome.toNat + compose.isSome.toNat + conditional.isSome.toNat
        + execute.isSome.toNat + get.isSome.toNat + put.isSome.toNat ≤ 1)
      && aggregateSingle aggregate && composeSingle compose && conditionalSingle conditional
/-- The invariant `singlePayload` below the `Aggregate` pointer. -/
def aggregateSingle : Option (List (String × Plan)) → Bool
  | none => true
  | some entries => entriesSingle entries
/-- The invariant `singlePayload` below the `Compose` pointer. -/
def composeSingle : Option (Plan × Plan) → Bool
  | none => true
  | some (A, B) => singlePayload A && singlePayload B
/-- The invariant `singlePayload` below the `Conditional` pointer. -/
def conditionalSingle : Option (Conditions × Plan) → Bool
  | none => true
  | some (_, plan) => singlePayload plan
/-- The invariant `singlePayload` on every child of an aggregate. -/
def entriesSingle : List (String × Plan) → Bool
  | [] => true
  | (_, innerPlan) :: rest => singlePayload innerPlan && entriesSingle rest
end

/-- The arguments of the invocations of the delegate hook `Finish`, in order. -/
def finishCalls (calls : List Call) : List (Logger × Option String) :=
  calls.filterMap fun c => match c with | Call.Finish logger err => some (logger, err) | _ => none

/-- Number of invocations of `source.Release()`. -/
def releaseCalls (calls : List Call) : Nat :=
  (calls.filter fun c => match c with | Call.Release => true | _ => false).length

/-- The signals passed to `process.Signal`, in order. -/
def forwardedSignals (calls : List Call) : List Signal :=
  calls.filterMap fun c => match c with | Call.Signal sig => some sig | _ => none

/-- The signals received before the step tree exits, in order of receipt. -/
def signalsBeforeExit : List Received → List Signal
  | [] => []
  | Received.exited _ :: _ => []
  | Received.signal sig :: rest => sig :: signalsBeforeExit rest

/-- The result with which the step-tree process exits, if the exit is received. -/
def exitStatus : List Received → Option (Option String)
  | [] => none
  | Received.exited err :: _ => some err
  | Received.signal _ :: rest => exitStatus rest

/-- The value of a decimal digit character. -/
def digitValue (c : Char) : Nat := c.toNat - 48

/-- The number a list of decimal digit characters denotes, read left to right. -/
def decimalValue (l : List Char) : Nat := l.foldl (fun acc c => 10 * acc + digitValue c) 0

mutual
/-- The session keys given to the factory for the steps of a tree, in the order
of the tree. -/
def sessionKeys : Step → List SessionID
  | Step.Identity => []
  | Step.Aggregate steps => sessionKeysAggregate steps
  | Step.Compose a b => sessionKeys a ++ sessionKeys b
  | Step.Conditional _ step => sessionKeys step
  | Step.Execute sessionID _ _ _ => [sessionID]
  | Step.Get sessionID _ _ _ _ => [sessionID]
  | Step.Put sessionID _ _ _ => [sessionID]
/-- Session keys behind the children of an aggregate step. -/
def sessionKeysAggregate : List (String × Step) → List SessionID
  | [] => []
  | (_, step) :: rest => sessionKeys step ++ sessionKeysAggregate rest
end

mutual
/-- The session keys of the factory Execute steps of a tree, in the order of the
tree. -/
def executeKeys : Step → List SessionID
  | Step.Identity => []
  | Step.Aggregate steps => executeKeysAggregate steps
  | Step.Compose a b => executeKeys a ++ executeKeys b
  | Step.Conditional _ step => executeKeys step
  | Step.Execute sessionID _ _ _ => [sessionID]
  | Step.Get _ _ _ _ _ => []
  | Step.Put _ _ _ _ => []
/-- Execute session keys behind the children of an aggregate step. -/
def executeKeysAggregate : List (String × Step) → List SessionID
  | [] => []
  | (_, step) :: rest => executeKeys step ++ executeKeysAggregate rest
end

/-- The roles of the specification under which a step acquires resources:
`execute`, `input:<name>` and `output:<name>`. -/
inductive Role where
  | execute
  | input (name : String)
  | output (name : String)
  deriving DecidableEq

/-- The session key of the specification, a function of build identity, role and
name, with the three formats of `executeSessionID`, `inputSessionID` and
`outputSessionID`. -/
def sessionKey (buildID : Int) : Role → SessionID
  | Role.execute => "build-" ++ toString buildID ++ "-execute"
  | Role.input name => "build-" ++ toString buildID ++ "-input-" ++ name
  | Role.output name => "build-" ++ toString buildID ++ "-output-" ++ name

mutual
/-- The role and name of every node of a plan that `buildStep` compiles to a
factory step, in the order of the tree: an Execute node with a config source
has role `execute`, a Get node role `input` under its name, a Put node role
`output` under its resource name; among several payloads the first one counts. -/
def planRoles : Plan → List Role
  | Plan.mk (some aggregate) _ _ _ _ _ => entriesRoles aggregate
  | Plan.mk none (some (A, B)) _ _ _ _ => planRoles A ++ planRoles B
  | Plan.mk none none (some (_, plan)) _ _ _ => planRoles plan
  | Plan.mk none none none (some execute) _ _ =>
    match execute.Config, decide (execute.ConfigPath ≠ "") with
    | none, false => []
    | _, _ => [Role.execute]
  | Plan.mk none none none none (some get) _ => [Role.input get.Name]
  | Plan.mk none none none none none (some put) => [Role.output put.Resource]
  | Plan.mk none none none none none none => []
/-- Roles and names below the children of an aggregate plan. -/
def entriesRoles : List (String × Plan) → List Role
  | [] => []
  | (_, innerPlan) :: rest => planRoles innerPlan ++ entriesRoles rest
end

/-- The node with only its first non-nil payload kept, in the order Aggregate,
Compose, Conditional, Execute, Get, Put; every later payload is set to nil. -/
def firstPayload : Plan → Plan
  | Plan.mk (some aggregate) _ _ _ _ _ => Plan.mk (some aggregate) none none none none none
  | Plan.mk none (some compose) _ _ _ _ => Plan.mk none (some compose) none none none none
  | Plan.mk none none (some conditional) _ _ _ =>
    Plan.mk none none (some conditional) none none none
  | Plan.mk none none none (some execute) _ _ => Plan.mk none none none (some execute) none none
  | Plan.mk none none none none (some get) _ => Plan.mk none none none none (some get) none
  | Plan.mk none none none none none put => Plan.mk none none none none none put

/-- The calls the loop of `Resume` makes for a sequence of received signals: each
is passed to `process.Signal`, and a kill is followed by `Aborted`. -/
def signalCalls (logger : Logger) : List Signal → List Call
  | [] => []
  | sig :: rest =>
    [Call.Signal sig] ++ (if sig = Signal.Kill then [Call.Aborted logger] else [])
      ++ signalCalls logger rest

/-! ## Concrete collaborators and inputs -/

/-- A codec that rejects every payload. -/
def rejectingCodec : Codec :=
  { Marshal := fun _ => Except.error "unsupported value"
    Unmarshal := fun _ => Except.error "invalid character" }

/-- An Execute payload with both an inline config and a config path. -/
def exampleExecute : ExecutePlan :=
  { Privileged := true, ConfigPath := "build.yml",
    Config := some { Image := "ubuntu", Params := [], Run := "./test.sh" } }

/-- A Get payload for input `repo` of resource `repo-git`, pinned to a version. -/
def exampleGet : GetPlan :=
  { Type_ := "git", Name := "repo", Resource := "repo-git",
    Source := [("uri", "https://example.com/repo.git")], Params := [("depth", "1")],
    Version := some [("ref", "abc123")] }

/-- A Put payload for resource `image`. -/
def examplePut : PutPlan :=
  { Type_ := "docker-image", Resource := "image", Source := [("repository", "example/app")],
    Params := [("build", "repo")] }

/-- A codec observed on one value: it marshals to `payload`, and unmarshals
`payload` to `decoded` and nothing else. -/
def fixedCodec (payload : String) (decoded : execMetadata) : Codec :=
  { Marshal := fun _ => Except.ok payload
    Unmarshal := fun wire =>
      if wire = payload then Except.ok decoded
      else Except.error "invalid character" }

/-- A plan whose only payload is an Aggregate pointer to a nil map. -/
def nilAggregatePlan : Plan := Plan.mk (some []) none none none none none

/-- The JSON text of the metadata of `nilAggregatePlan`: a nil map is written as
`null`. -/
def nilAggregatePayload : String := "\x7b\"Plan\":\x7b\"aggregate\":null\x7d\x7d"

/-- The codec `encoding/json` on the metadata of `nilAggregatePlan`: the nil map
is marshalled as `null`, and `null` is unmarshalled into a nil pointer, so the
decoded plan has no payload. -/
def nilAggregateCodec : Codec := fixedCodec nilAggregatePayload { Plan := Plan.empty }

/-- The build record with identity 42 and no stored metadata. -/
def exampleModel : DBBuild := { ID := 42, EngineMetadata := "" }

/-- A plan `Compose(Get repo, Execute build.yml)`. -/
def examplePlan : Plan :=
  Plan.mk none
    (some (Plan.mk none none none none
            (some { Type_ := "git", Name := "repo", Resource := "repo", Source := [],
                    Params := [], Version := none }) none,
           Plan.mk none none none
            (some { Privileged := false, ConfigPath := "build.yml", Config := none })
            none none))
    none none none none

/-- A JSON text for the metadata of `examplePlan`. -/
def examplePlanPayload : String :=
  "\x7b\"Plan\":\x7b\"compose\":\x7b\"a\":\x7b\"get\":\x7b\"type\":\"git\",\"name\":\"repo\",\"resource\":\"repo\"\x7d\x7d,\"b\":\x7b\"execute\":\x7b\"privileged\":false,\"config_path\":\"build.yml\"\x7d\x7d\x7d\x7d\x7d"

/-- A codec on the metadata of `examplePlan`, which it returns unchanged. -/
def examplePlanCodec : Codec := fixedCodec examplePlanPayload { Plan := examplePlan }

end Engine

/-! # Properties -/

namespace Transport

/-! ## The resolver: what one call does, by state of the cache -/

/-- With no cached address the call makes no collaborator call and panics. -/
theorem RoundTrip_uncached (db : TransportDB) (inner : InnerRoundTripper) (c : roundTripper)
    (request : Request) (h : c.cachedHost = none) :
    RoundTrip db inner c request
      = { c := c, outcome := Outcome.panicked, trace := [], callerRequest := request } := by
  simp [RoundTrip, forward, h]

/-- Forwarding with a cached address: the exact result. -/
theorem forward_cached (inner : InnerRoundTripper) (c : roundTripper) (trace : List Event)
    (request : Request) (host : String) (h : c.cachedHost = some host) :
    forward inner c trace request
      = { c := if (inner { request with URL := { request.URL with Host := host } }).2 ≠ none
                 then { c with cachedHost := none } else c,
          outcome := Outcome.returned
            (inner { request with URL := { request.URL with Host := host } }).1
            (inner { request with URL := { request.URL with Host := host } }).2,
          trace := trace
            ++ [Event.InnerRoundTrip { request with URL := { request.URL with Host := host } }],
          callerRequest := request } := by
  simp [forward, h]

/-- With a cached address the trace starts with a store read. -/
theorem RoundTrip_cached_trace (db : TransportDB) (inner : InnerRoundTripper)
    (c : roundTripper) (request : Request) (host : String) (h : c.cachedHost = some host) :
    ∃ rest, (RoundTrip db inner c request).trace = Event.GetWorker c.workerName :: rest
      ∧ storeReads rest = 0 := by
  by_cases h1 : (db c.workerName).err = none
  · by_cases h2 : (db c.workerName).found = true
    · by_cases h3 : (db c.workerName).savedWorker.State = WorkerState.stalled
      · exact ⟨[], by simp [RoundTrip, h, h1, h2, h3], rfl⟩
      · cases h4 : (db c.workerName).savedWorker.GardenAddr with
        | none => exact ⟨[], by simp [RoundTrip, h, h1, h2, h3, h4], rfl⟩
        | some a =>
          exact ⟨[Event.InnerRoundTrip { request with URL := { request.URL with Host := a } }],
            by simp [RoundTrip, h, h1, h2, h3, h4, forward], rfl⟩
    · exact ⟨[], by simp [RoundTrip, h, h1, h2], rfl⟩
  · exact ⟨[], by simp [RoundTrip, h, h1], rfl⟩

/-- A request reaches the inner transport only through one shape of call: a
store read, then the caller's request with the host replaced. -/
theorem RoundTrip_forwarded_inv (db : TransportDB) (inner : InnerRoundTripper)
    (c : roundTripper) (request r : Request)
    (h : Event.InnerRoundTrip r ∈ (RoundTrip db inner c request).trace) :
    ∃ a, r = { request with URL := { request.URL with Host := a } }
      ∧ RoundTrip db inner c request
          = { c := if (inner r).2 ≠ none then { c with cachedHost := none }
                   else { c with cachedHost := some a },
              outcome := Outcome.returned (inner r).1 (inner r).2,
              trace := [Event.GetWorker c.workerName, Event.InnerRoundTrip r],
              callerRequest := request } := by
  cases hc : c.cachedHost with
  | none => rw [RoundTrip_uncached db inner c request hc] at h; simp at h
  | some host =>
    by_cases h1 : (db c.workerName).err = none
    · by_cases h2 : (db c.workerName).found = true
      · by_cases h3 : (db c.workerName).savedWorker.State = WorkerState.stalled
        · simp [RoundTrip, hc, h1, h2, h3] at h
        · cases h4 : (db c.workerName).savedWorker.GardenAddr with
          | none => simp [RoundTrip, hc, h1, h2, h3, h4] at h
          | some a =>
            have hr : r = { request with URL := { request.URL with Host := a } } := by
              simpa [RoundTrip, hc, h1, h2, h3, h4, forward] using h
            refine ⟨a, hr, ?_⟩
            subst hr
            simp [RoundTrip, hc, h1, h2, h3, h4, forward]
      · simp [RoundTrip, hc, h1, h2] at h
    · simp [RoundTrip, hc, h1] at h

/-- A call that failed at the transport level leaves no cached address. -/
theorem transportFailed_clears (db : TransportDB) (inner : InnerRoundTripper)
    (c : roundTripper) (request : Request)
    (h : transportFailed (RoundTrip db inner c request)) :
    (RoundTrip db inner c request).c.cachedHost = none := by
  obtain ⟨hcalls, resp, e, hout⟩ := h
  have hmem : ∃ r, Event.InnerRoundTrip r ∈ (RoundTrip db inner c request).trace := by
    by_contra hno
    push_neg at hno
    have : innerCalls (RoundTrip db inner c request).trace = 0 := by
      unfold innerCalls
      rw [List.length_eq_zero, List.filter_eq_nil_iff]
      intro ev hev
      cases ev with
      | GetWorker n => simp
      | InnerRoundTrip r => exact absurd hev (hno r)
    omega
  obtain ⟨r, hr⟩ := hmem
  obtain ⟨a, _, heq⟩ := RoundTrip_forwarded_inv db inner c request r hr
  rw [heq] at hout ⊢
  simp only [Outcome.returned.injEq] at hout
  simp [hout.2]

/-! ## Claims about the resolver -/

/-- C1, the code at the failing inputs: the guard of line 30 is inverted. With an
address cached, `RoundTrip` reads the worker record from the store (once); with
no address cached it makes no store call at all and panics on `*c.cachedHost`. -/
theorem RoundTrip_store_read_inverted (db : TransportDB) (inner : InnerRoundTripper)
    (workerName host : String) (request : Request) :
    storeReads (RoundTrip db inner { workerName := workerName, cachedHost := some host }
        request).trace = 1
      ∧ RoundTrip db inner { workerName := workerName, cachedHost := none } request
          = { c := { workerName := workerName, cachedHost := none },
              outcome := Outcome.panicked, trace := [], callerRequest := request } := by
  constructor
  · obtain ⟨rest, htrace, hrest⟩ :=
      RoundTrip_cached_trace db inner { workerName := workerName, cachedHost := some host }
        request host rfl
    rw [htrace]
    unfold storeReads at hrest ⊢
    simp only [List.filter_cons_of_pos, List.length_cons, hrest]
  · exact RoundTrip_uncached db inner _ request rfl

/-- C2, the code at the failing inputs: after a `RoundTrip` that failed at the
transport level, the next `RoundTrip` does not read the store and does not
reach the inner transport, whatever the store and the transport would answer: it
panics. -/
theorem RoundTrip_after_transport_failure (db db2 : TransportDB)
    (inner inner2 : InnerRoundTripper) (c : roundTripper) (request request2 : Request)
    (h : transportFailed (RoundTrip db inner c request)) :
    RoundTrip db2 inner2 (RoundTrip db inner c request).c request2
      = { c := (RoundTrip db inner c request).c, outcome := Outcome.panicked, trace := [],
          callerRequest := request2 } :=
  RoundTrip_uncached db2 inner2 _ request2 (transportFailed_clears db inner c request h)

/-- C2, at a concrete input: the first address refuses the connection, the store
then holds a reachable address, and the second call still panics. -/
theorem RoundTrip_after_transport_failure_witness :
    transportFailed (RoundTrip (runningAt "10.0.0.1:7777") refusing
        (NewRoundTripper "worker-1" (some "10.0.0.1:7777")) exampleRequest)
      ∧ RoundTrip (runningAt "10.0.0.2:7777") serving
          (RoundTrip (runningAt "10.0.0.1:7777") refusing
            (NewRoundTripper "worker-1" (some "10.0.0.1:7777")) exampleRequest).c exampleRequest
        = { c := { workerName := "worker-1", cachedHost := none },
            outcome := Outcome.panicked, trace := [], callerRequest := exampleRequest } :=
  ⟨⟨by decide, none, Error.external "connection refused", by decide⟩,
   RoundTrip_after_transport_failure (runningAt "10.0.0.1:7777") (runningAt "10.0.0.2:7777")
     refusing serving (NewRoundTripper "worker-1" (some "10.0.0.1:7777")) exampleRequest
     exampleRequest ⟨by decide, none, Error.external "connection refused", by decide⟩⟩

/-- C6 as stated fails when the store read itself fails: the record is not found,
yet the call does not fail with `ErrMissingWorker`; it returns the store error. -/
theorem decision_table_counterexample :
    Event.GetWorker "worker-1"
        ∈ (RoundTrip failingStore serving (NewRoundTripper "worker-1" (some "10.0.0.1:7777"))
            exampleRequest).trace
      ∧ (failingStore "worker-1").found = false
      ∧ (RoundTrip failingStore serving (NewRoundTripper "worker-1" (some "10.0.0.1:7777"))
            exampleRequest).outcome
          ≠ Outcome.returned none (some (Error.ErrMissingWorker "worker-1"))
      ∧ (RoundTrip failingStore serving (NewRoundTripper "worker-1" (some "10.0.0.1:7777"))
            exampleRequest).outcome
          = Outcome.returned none (some (Error.external "store unavailable")) := by
  decide

/-- C6, amended: whenever `RoundTrip` reads the worker record and the store
returns no error, the outcome follows the decision table in this priority: not
found fails with `ErrMissingWorker`; else stalled fails with `ErrWorkerStalled`;
else address absent fails with `ErrWorkerAddrIsMissing`; in these three cases the
store read is the only collaborator call and the cache is untouched. Otherwise
the request is forwarded to the record's address, which is the cached address
afterwards unless the inner transport reports an error. -/
theorem RoundTrip_decision_table (db : TransportDB) (inner : InnerRoundTripper)
    (c : roundTripper) (request : Request)
    (hread : Event.GetWorker c.workerName ∈ (RoundTrip db inner c request).trace)
    (herr : (db c.workerName).err = none) :
    ((db c.workerName).found = false →
        RoundTrip db inner c request
          = { c := c,
              outcome := Outcome.returned none (some (Error.ErrMissingWorker c.workerName)),
              trace := [Event.GetWorker c.workerName], callerRequest := request })
      ∧ ((db c.workerName).found = true →
          (db c.workerName).savedWorker.State = WorkerState.stalled →
          RoundTrip db inner c request
            = { c := c,
                outcome := Outcome.returned none (some (Error.ErrWorkerStalled c.workerName)),
                trace := [Event.GetWorker c.workerName], callerRequest := request })
      ∧ ((db c.workerName).found = true →
          (db c.workerName).savedWorker.State ≠ WorkerState.stalled →
          (db c.workerName).savedWorker.GardenAddr = none →
          RoundTrip db inner c request
            = { c := c,
                outcome :=
                  Outcome.returned none (some (Error.ErrWorkerAddrIsMissing c.workerName)),
                trace := [Event.GetWorker c.workerName], callerRequest := request })
      ∧ (∀ a, (db c.workerName).found = true →
          (db c.workerName).savedWorker.State ≠ WorkerState.stalled →
          (db c.workerName).savedWorker.GardenAddr = some a →
          RoundTrip db inner c request
            = { c := if (inner { request with URL := { request.URL with Host := a } }).2 ≠ none
                       then { c with cachedHost := none } else { c with cachedHost := some a },
                outcome := Outcome.returned
                  (inner { request with URL := { request.URL with Host := a } }).1
                  (inner { request with URL := { request.URL with Host := a } }).2,
                trace := [Event.GetWorker c.workerName,
                  Event.InnerRoundTrip { request with URL := { request.URL with Host := a } }],
                callerRequest := request }) := by
  cases hc : c.cachedHost with
  | none => rw [RoundTrip_uncached db inner c request hc] at hread; simp at hread
  | some host =>
    refine ⟨?_, ?_, ?_, ?_⟩
    · intro h2
      simp [RoundTrip, hc, herr, h2]
    · intro h2 h3
      simp [RoundTrip, hc, herr, h2, h3]
    · intro h2 h3 h4
      simp [RoundTrip, hc, herr, h2, h3, h4]
    · intro a h2 h3 h4
      simp [RoundTrip, hc, herr, h2, h3, h4, forward]

/-- C6, amended, at a concrete input: a found, running worker registered at
`10.0.0.2:7777`, read while `10.0.0.1:7777` is cached. -/
theorem RoundTrip_decision_table_witness :
    RoundTrip (runningAt "10.0.0.2:7777") serving
        (NewRoundTripper "worker-1" (some "10.0.0.1:7777")) exampleRequest
      = { c := { workerName := "worker-1", cachedHost := some "10.0.0.2:7777" },
          outcome := Outcome.returned (some { StatusCode := 200, Body := "" }) none,
          trace := [Event.GetWorker "worker-1",
            Event.InnerRoundTrip
              { exampleRequest with URL := { exampleRequest.URL with Host := "10.0.0.2:7777" } }],
          callerRequest := exampleRequest } :=
  (RoundTrip_decision_table (runningAt "10.0.0.2:7777") serving
    (NewRoundTripper "worker-1" (some "10.0.0.1:7777")) exampleRequest
    (by decide) (by decide)).2.2.2 "10.0.0.2:7777" (by decide) (by decide) (by decide)

/-- C7, the code at the failing input: a call that reads a stalled worker fails
with `ErrWorkerStalled` after one store read and no inner call, but this happens
only with an address cached, and that address is still cached after the call. -/
theorem RoundTrip_stalled_keeps_cache (inner : InnerRoundTripper) (workerName host : String)
    (addr : Option String) (request : Request) :
    RoundTrip
        (fun _ => { savedWorker := { State := WorkerState.stalled, GardenAddr := addr },
                    found := true, err := none })
        inner { workerName := workerName, cachedHost := some host } request
      = { c := { workerName := workerName, cachedHost := some host },
          outcome := Outcome.returned none (some (Error.ErrWorkerStalled workerName)),
          trace := [Event.GetWorker workerName], callerRequest := request } := by
  simp [RoundTrip]

/-- C8: every request that `RoundTrip` hands to the inner transport is the
caller's request with only the URL host replaced; that host is the address the
resolver holds (it is the cached address after the call, unless the inner
transport failed and the cache was cleared); and the caller's request is
unchanged. -/
theorem RoundTrip_forwarded_request (db : TransportDB) (inner : InnerRoundTripper)
    (c : roundTripper) (request r : Request)
    (h : Event.InnerRoundTrip r ∈ (RoundTrip db inner c request).trace) :
    r = { request with URL := { request.URL with Host := r.URL.Host } }
      ∧ r.Method = request.Method ∧ r.Header = request.Header ∧ r.Body = request.Body
      ∧ r.URL.Scheme = request.URL.Scheme ∧ r.URL.Path = request.URL.Path
      ∧ r.URL.RawQuery = request.URL.RawQuery
      ∧ (RoundTrip db inner c request).callerRequest = request
      ∧ ((RoundTrip db inner c request).c.cachedHost = some r.URL.Host
          ∨ ((inner r).2 ≠ none ∧ (RoundTrip db inner c request).c.cachedHost = none)) := by
  obtain ⟨a, hr, heq⟩ := RoundTrip_forwarded_inv db inner c request r h
  rw [heq]
  subst hr
  refine ⟨rfl, rfl, rfl, rfl, rfl, rfl, rfl, rfl, ?_⟩
  by_cases he : (inner { request with URL := { request.URL with Host := a } }).2 = none
  · left; simp [he]
  · right; simp [he]

/-- C8 at a concrete input. -/
theorem RoundTrip_forwarded_request_witness :
    ({ exampleRequest with URL := { exampleRequest.URL with Host := "10.0.0.2:7777" } }
        : Request).Method = exampleRequest.Method
      ∧ (RoundTrip (runningAt "10.0.0.2:7777") serving
          (NewRoundTripper "worker-1" (some "10.0.0.1:7777")) exampleRequest).callerRequest
        = exampleRequest :=
  have h := RoundTrip_forwarded_request (runningAt "10.0.0.2:7777") serving
    (NewRoundTripper "worker-1" (some "10.0.0.1:7777")) exampleRequest
    { exampleRequest with URL := { exampleRequest.URL with Host := "10.0.0.2:7777" } }
    (by decide)
  ⟨h.2.1, h.2.2.2.2.2.2.2.1⟩

/-- C9: when the inner transport returns an error for the forwarded request,
`RoundTrip` clears the cached address, returns that same response and error, and
has invoked the inner transport exactly once. -/
theorem RoundTrip_inner_error (db : TransportDB) (inner : InnerRoundTripper)
    (c : roundTripper) (request r : Request) (e : Error)
    (h : Event.InnerRoundTrip r ∈ (RoundTrip db inner c request).trace)
    (he : (inner r).2 = some e) :
    (RoundTrip db inner c request).c.cachedHost = none
      ∧ (RoundTrip db inner c request).outcome = Outcome.returned (inner r).1 (some e)
      ∧ innerCalls (RoundTrip db inner c request).trace = 1
      ∧ forwarded (RoundTrip db inner c request).trace = [r] := by
  obtain ⟨a, _, heq⟩ := RoundTrip_forwarded_inv db inner c request r h
  rw [heq]
  simp [he, innerCalls, forwarded]

/-- C9 at a concrete input: the worker's address refuses the connection. -/
theorem RoundTrip_inner_error_witness :
    (RoundTrip (runningAt "10.0.0.1:7777") refusing
        (NewRoundTripper "worker-1" (some "10.0.0.1:7777")) exampleRequest).c.cachedHost = none
      ∧ (RoundTrip (runningAt "10.0.0.1:7777") refusing
          (NewRoundTripper "worker-1" (some "10.0.0.1:7777")) exampleRequest).outcome
        = Outcome.returned none (some (Error.external "connection refused")) :=
  have h := RoundTrip_inner_error (runningAt "10.0.0.1:7777") refusing
    (NewRoundTripper "worker-1" (some "10.0.0.1:7777")) exampleRequest
    { exampleRequest with URL := { exampleRequest.URL with Host := "10.0.0.1:7777" } }
    (Error.external "connection refused") (by decide) (by decide)
  ⟨h.1, h.2.1⟩

/-- C26, the code at the failing inputs: a resolver constructed with no initial
worker host, and likewise a resolver whose cache a transport failure has just
cleared, dereferences the absent cached address on its next `RoundTrip`: the
call panics; it neither returns a resolution error nor forwards the request. -/
theorem RoundTrip_nil_cache_panics (db db2 : TransportDB) (inner inner2 : InnerRoundTripper)
    (workerName host addr : String) (request request2 : Request) (e : Error)
    (resp : Option Response) :
    (RoundTrip db inner (NewRoundTripper workerName none) request).outcome = Outcome.panicked
      ∧ innerCalls (RoundTrip db inner (NewRoundTripper workerName none) request).trace = 0
      ∧ (RoundTrip db2 inner2
          (RoundTrip (runningAt addr) (fun _ => (resp, some e))
            (NewRoundTripper workerName (some host)) request).c request2).outcome
        = Outcome.panicked := by
  refine ⟨?_, ?_, ?_⟩
  · rw [RoundTrip_uncached db inner _ request rfl]
  · rw [RoundTrip_uncached db inner _ request rfl]
    rfl
  · rw [RoundTrip_uncached db2 inner2 _ request2 (by simp [RoundTrip, runningAt, forward,
      NewRoundTripper])]

/-- C29: whenever `RoundTrip` reads the worker record and the store returns an
error, `RoundTrip` returns that same error with no response, the store read is
its only collaborator call (the inner transport is not invoked), and the cached
address is unchanged. -/
theorem RoundTrip_store_error (db : TransportDB) (inner : InnerRoundTripper)
    (c : roundTripper) (request : Request) (e : Error)
    (hread : Event.GetWorker c.workerName ∈ (RoundTrip db inner c request).trace)
    (herr : (db c.workerName).err = some e) :
    RoundTrip db inner c request
        = { c := c, outcome := Outcome.returned none (some e),
            trace := [Event.GetWorker c.workerName], callerRequest := request }
      ∧ innerCalls (RoundTrip db inner c request).trace = 0
      ∧ (RoundTrip db inner c request).c.cachedHost = c.cachedHost := by
  cases hc : c.cachedHost with
  | none => rw [RoundTrip_uncached db inner c request hc] at hread; simp at hread
  | some host =>
    have heq : RoundTrip db inner c request
        = { c := c, outcome := Outcome.returned none (some e),
            trace := [Event.GetWorker c.workerName], callerRequest := request } := by
      simp [RoundTrip, hc, herr]
    rw [heq]
    exact ⟨rfl, rfl, hc⟩

/-- C29 at a concrete input: the store is unavailable while an address is cached. -/
theorem RoundTrip_store_error_witness :
    RoundTrip failingStore serving (NewRoundTripper "worker-1" (some "10.0.0.1:7777"))
        exampleRequest
      = { c := { workerName := "worker-1", cachedHost := some "10.0.0.1:7777" },
          outcome := Outcome.returned none (some (Error.external "store unavailable")),
          trace := [Event.GetWorker "worker-1"], callerRequest := exampleRequest } :=
  (RoundTrip_store_error failingStore serving
    (NewRoundTripper "worker-1" (some "10.0.0.1:7777")) exampleRequest
    (Error.external "store unavailable") (by decide) (by decide)).1

end Transport

namespace Engine

/-! ## The compiler is total -/

mutual
/-- With a bound of at least the plan's depth, the bounded compiler returns, and
returns what `buildStep` computes. -/
theorem buildStepFuel_eq (build : execBuild) :
    ∀ (plan : Plan) (fuel : Nat) (logger : Logger), planDepth plan ≤ fuel →
      buildStepFuel build fuel plan logger = some (buildStep build plan logger)
  | Plan.mk (some aggregate) _ _ _ _ _, fuel, logger, h => by
    cases fuel with
    | zero => simp [planDepth] at h
    | succ n =>
      have ha : entriesDepth aggregate ≤ n := by
        simp only [planDepth, aggregateDepth, composeDepth, conditionalDepth] at h; omega
      simp [buildStepFuel, buildStep, buildAggregateFuel_eq build aggregate n _ ha]
  | Plan.mk none (some (A, B)) _ _ _ _, fuel, logger, h => by
    cases fuel with
    | zero => simp [planDepth] at h
    | succ n =>
      have hA : planDepth A ≤ n := by
        simp only [planDepth, aggregateDepth, composeDepth, conditionalDepth] at h; omega
      have hB : planDepth B ≤ n := by
        simp only [planDepth, aggregateDepth, composeDepth, conditionalDepth] at h; omega
      simp [buildStepFuel, buildStep, buildStepFuel_eq build A n logger hA,
        buildStepFuel_eq build B n logger hB]
  | Plan.mk none none (some (conditions, plan)) _ _ _, fuel, logger, h => by
    cases fuel with
    | zero => simp [planDepth] at h
    | succ n =>
      have hp : planDepth plan ≤ n := by
        simp only [planDepth, aggregateDepth, composeDepth, conditionalDepth] at h; omega
      simp [buildStepFuel, buildStep, buildStepFuel_eq build plan n _ hp]
  | Plan.mk none none none (some execute) _ _, fuel, logger, h => by
    cases fuel with
    | zero => simp [planDepth] at h
    | succ n =>
      simp only [buildStepFuel, buildStep]
      split <;> rfl
  | Plan.mk none none none none (some get) _, fuel, logger, h => by
    cases fuel with
    | zero => simp [planDepth] at h
    | succ n => simp [buildStepFuel, buildStep]
  | Plan.mk none none none none none (some put), fuel, logger, h => by
    cases fuel with
    | zero => simp [planDepth] at h
    | succ n => simp [buildStepFuel, buildStep]
  | Plan.mk none none none none none none, fuel, logger, h => by
    cases fuel with
    | zero => simp [planDepth] at h
    | succ n => simp [buildStepFuel, buildStep]
/-- The bounded aggregate loop returns what `buildAggregate` computes. -/
theorem buildAggregateFuel_eq (build : execBuild) :
    ∀ (entries : List (String × Plan)) (fuel : Nat) (logger : Logger),
      entriesDepth entries ≤ fuel →
      buildAggregateFuel build fuel entries logger = some (buildAggregate build entries logger)
  | [], fuel, logger, _ => by simp [buildAggregateFuel, buildAggregate]
  | (name, innerPlan) :: rest, fuel, logger, h => by
    have h1 : planDepth innerPlan ≤ fuel := by
      simp only [entriesDepth] at h; omega
    have h2 : entriesDepth rest ≤ fuel := by
      simp only [entriesDepth] at h; omega
    simp [buildAggregateFuel, buildAggregate, buildStepFuel_eq build innerPlan fuel _ h1,
      buildAggregateFuel_eq build rest fuel logger h2]
end

/-- C5: for every plan, `buildStep` returns a step. Run with a bound on the depth
of nested calls equal to the depth of the plan, the compiler returns `some` step
(it never exhausts the bound and has no other failure path), and that step is
the value of the structurally recursive `buildStep`. -/
theorem buildStep_total (build : execBuild) (plan : Plan) (logger : Logger) :
    ∃ step, buildStepFuel build (planDepth plan) plan logger = some step
      ∧ buildStep build plan logger = step :=
  ⟨buildStep build plan logger, buildStepFuel_eq build plan _ logger (le_refl _), rfl⟩

/-! ## Abort signals -/

/-- The loop invokes `Aborted` once per kill signal it receives before the exit. -/
theorem abortedCalls_resumeLoop (logger : Logger) :
    ∀ received : List Received,
      abortedCalls (resumeLoop logger received).1 = killsBeforeExit received
  | [] => rfl
  | Received.exited _ :: _ => rfl
  | Received.signal sig :: rest => by
    have ih := abortedCalls_resumeLoop logger rest
    unfold abortedCalls at ih ⊢
    by_cases hs : sig = Signal.Kill
    · simp [resumeLoop, killsBeforeExit, hs, ih, Nat.add_comm]
    · simp [resumeLoop, killsBeforeExit, hs, ih]

/-- A run of `Resume` invokes `Aborted` once per kill signal received before the
exit. -/
theorem abortedCalls_Resume (build : execBuild) (logger : Logger) (received : List Received) :
    abortedCalls (Resume build logger received).calls = killsBeforeExit received := by
  have h := abortedCalls_resumeLoop logger received
  unfold abortedCalls at h ⊢
  unfold Resume
  by_cases hr : (resumeLoop logger received).2 = true
  · simp [hr, List.filter_append, h]
  · simp [hr, List.filter_append, h]

/-- Receiving `n` kills and then the exit counts `n` kills before the exit. -/
theorem killsBeforeExit_killsThenExit (err : Option String) :
    ∀ n : Nat, killsBeforeExit (killsThenExit n err) = n
  | 0 => rfl
  | n + 1 => by
    have ih := killsBeforeExit_killsThenExit err n
    unfold killsThenExit at ih ⊢
    simp [List.replicate_succ, killsBeforeExit, ih, Nat.add_comm]

/-- C3 as stated fails for N = 2: two kill signals received before the step tree
exits make the `Aborted` hook run twice, not once. -/
theorem Resume_aborted_twice :
    abortedCalls (Resume (CreateBuild exampleModel examplePlan).1 []
        (killsThenExit 2 none)).calls = 2
      ∧ abortedCalls (Resume (CreateBuild exampleModel examplePlan).1 []
          (killsThenExit 2 none)).calls ≠ 1 := by
  constructor
  · rfl
  · decide

/-- C3, amended: in every run of `Resume` in which N kill signals are received
before the step tree exits, the `Aborted` hook is invoked exactly N times, once
per received kill signal (so exactly once when N = 1). -/
theorem Resume_aborted_per_kill (build : execBuild) (logger : Logger) (n : Nat)
    (err : Option String) :
    abortedCalls (Resume build logger (killsThenExit n err)).calls = n := by
  rw [abortedCalls_Resume, killsBeforeExit_killsThenExit]

/-- C4 as stated fails: on a fresh build the first `Abort` returns nil and leaves
its signal in the queue; with nothing draining the queue the second `Abort`
does not return. -/
theorem Abort_blocks_when_pending :
    ∃ build, Abort (CreateBuild exampleModel examplePlan).1 = some (build, none)
      ∧ build.signals.buf = [Signal.Kill] ∧ Abort build = none :=
  ⟨_, rfl, rfl, rfl⟩

/-- C4, amended: on a build whose signal queue has capacity 1 (every build made
by `CreateBuild` or `LookupBuild`), `Abort` returns nil without blocking, having
queued one kill signal, exactly when the queue is empty; with a signal pending
it blocks. -/
theorem Abort_returns_iff_empty (build : execBuild) (hcap : build.signals.cap = 1) :
    (build.signals.buf = [] →
        Abort build
          = some ({ build with signals := { cap := 1, buf := [Signal.Kill] } }, none))
      ∧ (build.signals.buf ≠ [] → Abort build = none)
      ∧ ((Abort build).isSome = true ↔ build.signals.buf = []) := by
  have hlen : build.signals.buf.length < 1 ↔ build.signals.buf = [] := by
    rw [Nat.lt_one_iff, List.length_eq_zero]
  refine ⟨?_, ?_, ?_⟩
  · intro h
    simp [Abort, hcap, h]
  · intro h
    simp [Abort, hcap, hlen, h]
  · by_cases h : build.signals.buf = []
    · simp [Abort, hcap, h]
    · simp [Abort, hcap, hlen, h]

/-- C4, amended, at a concrete input: the first `Abort` on a fresh build. -/
theorem Abort_returns_iff_empty_witness :
    (CreateBuild exampleModel examplePlan).1.signals.cap = 1
      ∧ (Abort (CreateBuild exampleModel examplePlan).1).isSome = true :=
  ⟨rfl, (Abort_returns_iff_empty (CreateBuild exampleModel examplePlan).1 rfl).2.2.mpr rfl⟩

/-! ## Metadata round trip -/

mutual
/-- The shape of the compiled step tree is determined by the plan's skeleton. -/
theorem stepShape_buildStep (build : execBuild) :
    ∀ (plan : Plan) (logger : Logger),
      stepShape (buildStep build plan logger) = skeletonShape (planSkeleton plan)
  | Plan.mk (some aggregate) _ _ _ _ _, logger => by
    simp [buildStep, stepShape, planSkeleton, aggregateSkeleton, skeletonShape,
      stepsShape_buildAggregate build aggregate]
  | Plan.mk none (some (A, B)) _ _ _ _, logger => by
    simp [buildStep, stepShape, planSkeleton, aggregateSkeleton, composeSkeleton,
      skeletonShape, stepShape_buildStep build A, stepShape_buildStep build B]
  | Plan.mk none none (some (conditions, plan)) _ _ _, logger => by
    simp [buildStep, stepShape, planSkeleton, aggregateSkeleton, composeSkeleton,
      conditionalSkeleton, skeletonShape, stepShape_buildStep build plan]
  | Plan.mk none none none (some execute) _ _, logger => by
    simp only [buildStep, planSkeleton, aggregateSkeleton, composeSkeleton,
      conditionalSkeleton, executeSkeleton, skeletonShape]
    cases hc : execute.Config <;> by_cases hp : execute.ConfigPath = "" <;>
      simp [hp, stepShape]
  | Plan.mk none none none none (some get) _, logger => by
    simp [buildStep, stepShape, planSkeleton, aggregateSkeleton, composeSkeleton,
      conditionalSkeleton, executeSkeleton, skeletonShape]
  | Plan.mk none none none none none (some put), logger => by
    simp [buildStep, stepShape, planSkeleton, aggregateSkeleton, composeSkeleton,
      conditionalSkeleton, executeSkeleton, skeletonShape]
  | Plan.mk none none none none none none, logger => by
    simp [buildStep, stepShape, planSkeleton, aggregateSkeleton, composeSkeleton,
      conditionalSkeleton, executeSkeleton, skeletonShape]
/-- The shapes of compiled aggregate children are determined by their skeletons. -/
theorem stepsShape_buildAggregate (build : execBuild) :
    ∀ (entries : List (String × Plan)) (logger : Logger),
      stepsShape (buildAggregate build entries logger) = skeletonsShape (entriesSkeleton entries)
  | [], _ => by simp [buildAggregate, stepsShape, entriesSkeleton, skeletonsShape]
  | (name, innerPlan) :: rest, logger => by
    simp [buildAggregate, stepsShape, entriesSkeleton, skeletonsShape,
      stepShape_buildStep build innerPlan, stepsShape_buildAggregate build rest]
end

/-- C10 as stated fails: marshalling is followed by unmarshalling, and the codec
decides what comes back. For the plan whose Aggregate pointer points to a nil
map, `Metadata()` is the text with `null`, `LookupBuild` on that text succeeds,
but the looked-up plan has a nil Aggregate pointer and compiles to Identity,
while the original plan compiles to an (empty) aggregate step. -/
theorem metadata_round_trip_counterexample :
    Metadata nilAggregateCodec (CreateBuild exampleModel nilAggregatePlan).1
        = some nilAggregatePayload
      ∧ LookupBuild nilAggregateCodec { ID := 42, EngineMetadata := nilAggregatePayload }
        = Except.ok { buildID := 42, delegate := 42, metadata := { Plan := Plan.empty },
                      signals := makeChan 1 }
      ∧ stepShape (buildStep (CreateBuild exampleModel nilAggregatePlan).1 nilAggregatePlan [])
        = Shape.Aggregate []
      ∧ stepShape (buildStep
          { buildID := 42, delegate := 42, metadata := { Plan := Plan.empty },
            signals := makeChan 1 } Plan.empty [])
        = Shape.Identity
      ∧ stepShape (buildStep
          { buildID := 42, delegate := 42, metadata := { Plan := Plan.empty },
            signals := makeChan 1 } Plan.empty [])
        ≠ stepShape (buildStep (CreateBuild exampleModel nilAggregatePlan).1
            nilAggregatePlan []) := by
  refine ⟨rfl, rfl, rfl, rfl, ?_⟩
  intro h
  have h2 : Shape.Identity = Shape.Aggregate [] := h
  cases h2

/-- C10, amended: let `payload` be the `Metadata()` string of `CreateBuild(model,
P)`. `LookupBuild` on the model with the same identity and that payload
succeeds exactly when `json.Unmarshal` accepts the payload, and then returns the
build with the same identity holding the unmarshalled metadata. Compiling the
looked-up plan gives a step tree of the same shape as compiling P exactly when
the unmarshalled plan and P select payloads of the same shape, which is so
whenever they have the same skeleton (the same pointers set, child names,
children, and Execute config presence). -/
theorem metadata_round_trip (codec : Codec) (model : DBBuild) (plan : Plan)
    (payload : String) (logger : Logger)
    (hM : Metadata codec (CreateBuild model plan).1 = some payload) :
    codec.Marshal { Plan := plan } = Except.ok payload
      ∧ (∀ err, codec.Unmarshal payload = Except.error err →
          LookupBuild codec { ID := model.ID, EngineMetadata := payload }
            = Except.error (EngineError.unmarshal err))
      ∧ (∀ decoded, codec.Unmarshal payload = Except.ok decoded →
          LookupBuild codec { ID := model.ID, EngineMetadata := payload }
              = Except.ok { buildID := (CreateBuild model plan).1.buildID,
                            delegate := (CreateBuild model plan).1.delegate,
                            metadata := decoded, signals := makeChan 1 }
            ∧ (stepShape (buildStep
                  { buildID := (CreateBuild model plan).1.buildID,
                    delegate := (CreateBuild model plan).1.delegate,
                    metadata := decoded, signals := makeChan 1 } decoded.Plan logger)
                = stepShape (buildStep (CreateBuild model plan).1 plan logger)
              ↔ skeletonShape (planSkeleton decoded.Plan)
                = skeletonShape (planSkeleton plan))
            ∧ (planSkeleton decoded.Plan = planSkeleton plan →
                stepShape (buildStep
                    { buildID := (CreateBuild model plan).1.buildID,
                      delegate := (CreateBuild model plan).1.delegate,
                      metadata := decoded, signals := makeChan 1 } decoded.Plan logger)
                  = stepShape (buildStep (CreateBuild model plan).1 plan logger))) := by
  have hmarshal : codec.Marshal { Plan := plan } = Except.ok payload := by
    unfold Metadata CreateBuild at hM
    simp only at hM
    split at hM
    · simp at hM
    · rename_i p hp
      simp only [Option.some.injEq] at hM
      rw [hp, hM]
  refine ⟨hmarshal, ?_, ?_⟩
  · intro err herr
    simp [LookupBuild, herr]
  · intro decoded hdec
    refine ⟨by simp [LookupBuild, hdec, CreateBuild], ?_, ?_⟩
    · rw [stepShape_buildStep, stepShape_buildStep]
    · intro hS
      rw [stepShape_buildStep, stepShape_buildStep, hS]

/-- C10, amended, at a concrete input: `Compose(Get repo, Execute build.yml)`
through a codec that returns the plan it was given. -/
theorem metadata_round_trip_witness :
    Metadata examplePlanCodec (CreateBuild exampleModel examplePlan).1 = some examplePlanPayload
      ∧ LookupBuild examplePlanCodec { ID := 42, EngineMetadata := examplePlanPayload }
        = Except.ok { buildID := 42, delegate := 42, metadata := { Plan := examplePlan },
                      signals := makeChan 1 }
      ∧ stepShape (buildStep
          { buildID := 42, delegate := 42, metadata := { Plan := examplePlan },
            signals := makeChan 1 } examplePlan [])
        = stepShape (buildStep (CreateBuild exampleModel examplePlan).1 examplePlan []) :=
  have h := (metadata_round_trip examplePlanCodec exampleModel examplePlan examplePlanPayload
    [] rfl).2.2 { Plan := examplePlan } rfl
  ⟨rfl, h.1, h.2.2 rfl⟩

/-! ## Lookup of persisted builds -/

/-- C11 as stated fails in its last part: on metadata that does not parse,
`LookupBuild` returns the error of `json.Unmarshal` itself; it is not a
`CorruptMetadata` error. -/
theorem LookupBuild_error_counterexample :
    LookupBuild rejectingCodec { ID := 42, EngineMetadata := "not json" }
        = Except.error (EngineError.unmarshal "invalid character")
      ∧ ¬ ∃ cause, LookupBuild rejectingCodec { ID := 42, EngineMetadata := "not json" }
          = Except.error (EngineError.CorruptMetadata cause) := by
  constructor
  · rfl
  · rintro ⟨cause, h⟩
    simp [LookupBuild, rejectingCodec] at h

/-- C11, amended: `LookupBuild` fails if and only if the stored metadata does not
unmarshal; when it fails it returns no build and its error is the error of
`json.Unmarshal`, unchanged; when the metadata unmarshals it returns the build
holding it. -/
theorem LookupBuild_fails_iff (codec : Codec) (model : DBBuild) :
    ((∃ err, LookupBuild codec model = Except.error err)
        ↔ ∃ e, codec.Unmarshal model.EngineMetadata = Except.error e)
      ∧ (∀ e, codec.Unmarshal model.EngineMetadata = Except.error e →
          LookupBuild codec model = Except.error (EngineError.unmarshal e))
      ∧ (∀ metadata, codec.Unmarshal model.EngineMetadata = Except.ok metadata →
          LookupBuild codec model
            = Except.ok { buildID := model.ID, delegate := model.ID, metadata := metadata,
                          signals := makeChan 1 }) := by
  refine ⟨?_, ?_, ?_⟩
  · cases h : codec.Unmarshal model.EngineMetadata with
    | error e => simp [LookupBuild, h]
    | ok metadata => simp [LookupBuild, h]
  · intro e h
    simp [LookupBuild, h]
  · intro metadata h
    simp [LookupBuild, h]

/-! ## Compilation of single nodes -/

/-- C12: an Execute node with no earlier payload compiles, by presence of the
inline config and of a non-empty config path: both, to the factory Execute step
on the merged source with the file source in `A` (overridden) and the inline
config in `B` (overriding); inline only, to the static source; path only, to the
file source; neither, to Identity, with no factory call. -/
theorem buildStep_execute_configSource (build : execBuild) (execute : ExecutePlan)
    (get : Option GetPlan) (put : Option PutPlan) (logger : Logger) :
    (∀ config, execute.Config = some config → execute.ConfigPath ≠ "" →
        buildStep build (Plan.mk none none none (some execute) get put) logger
          = Step.Execute (executeSessionID build)
              (StepDelegate.ExecutionDelegate build.delegate
                (Logger.Session logger "execute" LagerData.none))
              execute.Privileged
              (BuildConfigSource.MergedConfigSource
                (BuildConfigSource.FileConfigSource execute.ConfigPath)
                (BuildConfigSource.StaticConfigSource config))
          ∧ BuildConfigSource.overriding
              (BuildConfigSource.MergedConfigSource
                (BuildConfigSource.FileConfigSource execute.ConfigPath)
                (BuildConfigSource.StaticConfigSource config))
            = some (BuildConfigSource.StaticConfigSource config)
          ∧ BuildConfigSource.overridden
              (BuildConfigSource.MergedConfigSource
                (BuildConfigSource.FileConfigSource execute.ConfigPath)
                (BuildConfigSource.StaticConfigSource config))
            = some (BuildConfigSource.FileConfigSource execute.ConfigPath))
      ∧ (∀ config, execute.Config = some config → execute.ConfigPath = "" →
          buildStep build (Plan.mk none none none (some execute) get put) logger
            = Step.Execute (executeSessionID build)
                (StepDelegate.ExecutionDelegate build.delegate
                  (Logger.Session logger "execute" LagerData.none))
                execute.Privileged (BuildConfigSource.StaticConfigSource config))
      ∧ (execute.Config = none → execute.ConfigPath ≠ "" →
          buildStep build (Plan.mk none none none (some execute) get put) logger
            = Step.Execute (executeSessionID build)
                (StepDelegate.ExecutionDelegate build.delegate
                  (Logger.Session logger "execute" LagerData.none))
                execute.Privileged (BuildConfigSource.FileConfigSource execute.ConfigPath))
      ∧ (execute.Config = none → execute.ConfigPath = "" →
          buildStep build (Plan.mk none none none (some execute) get put) logger
              = Step.Identity
            ∧ factoryCalls (buildStep build (Plan.mk none none none (some execute) get put)
                logger) = 0) := by
  refine ⟨?_, ?_, ?_, ?_⟩
  · intro config hc hp
    simp [buildStep, hc, hp, BuildConfigSource.overriding, BuildConfigSource.overridden]
  · intro config hc hp
    simp [buildStep, hc, hp]
  · intro hc hp
    simp [buildStep, hc, hp]
  · intro hc hp
    simp [buildStep, hc, hp, factoryCalls]

/-- C13: a plan node with every payload nil compiles to Identity; no factory
method is called and no delegate is obtained. -/
theorem buildStep_all_nil (build : execBuild) (logger : Logger) :
    buildStep build (Plan.mk none none none none none none) logger = Step.Identity
      ∧ factoryCalls (buildStep build (Plan.mk none none none none none none) logger) = 0
      ∧ stepDelegates (buildStep build (Plan.mk none none none none none none) logger) = [] := by
  simp [buildStep, factoryCalls, stepDelegates]

/-! ## Runs of the execution driver -/

/-- The loop, in closed form: the calls for the signals received before the exit,
then `Finish` with the exit status if the exit is received. -/
theorem resumeLoop_eq (logger : Logger) :
    ∀ received : List Received,
      resumeLoop logger received
        = (signalCalls logger (signalsBeforeExit received)
            ++ (match exitStatus received with
                | some err => [Call.Finish (Logger.Session logger "finish" LagerData.none) err]
                | none => []),
           (exitStatus received).isSome)
  | [] => rfl
  | Received.exited _ :: _ => rfl
  | Received.signal sig :: rest => by
    simp [resumeLoop, resumeLoop_eq logger rest, signalCalls, signalsBeforeExit, exitStatus]

/-- A run of `Resume`, in closed form. -/
theorem Resume_calls_eq (build : execBuild) (logger : Logger) (received : List Received) :
    (Resume build logger received).calls
      = [Call.Using (buildStep build build.metadata.Plan logger), Call.Background, Call.Wait]
          ++ (signalCalls logger (signalsBeforeExit received)
          ++ (match exitStatus received with
              | some err =>
                [Call.Finish (Logger.Session logger "finish" LagerData.none) err, Call.Release]
              | none => [])) := by
  unfold Resume
  rw [resumeLoop_eq]
  cases exitStatus received <;> simp

/-- A run of `Resume` returns exactly when the exit is received. -/
theorem Resume_returned_eq (build : execBuild) (logger : Logger) (received : List Received) :
    (Resume build logger received).returned = (exitStatus received).isSome := by
  unfold Resume
  rw [resumeLoop_eq]

/-- No `Finish` is among the calls made for signals. -/
theorem finishCalls_signalCalls (logger : Logger) :
    ∀ signals : List Signal, finishCalls (signalCalls logger signals) = []
  | [] => rfl
  | sig :: rest => by
    have ih := finishCalls_signalCalls logger rest
    unfold finishCalls at ih ⊢
    by_cases hs : sig = Signal.Kill <;> simp [signalCalls, hs, List.filterMap_append, ih]

/-- No `Release` is among the calls made for signals. -/
theorem releaseCalls_signalCalls (logger : Logger) :
    ∀ signals : List Signal, releaseCalls (signalCalls logger signals) = 0
  | [] => rfl
  | sig :: rest => by
    have ih := releaseCalls_signalCalls logger rest
    unfold releaseCalls at ih ⊢
    by_cases hs : sig = Signal.Kill <;> simp [signalCalls, hs, List.filter_append, ih]

/-- The signals forwarded by the calls made for signals are those signals. -/
theorem forwardedSignals_signalCalls (logger : Logger) :
    ∀ signals : List Signal, forwardedSignals (signalCalls logger signals) = signals
  | [] => rfl
  | sig :: rest => by
    have ih := forwardedSignals_signalCalls logger rest
    unfold forwardedSignals at ih ⊢
    by_cases hs : sig = Signal.Kill <;> simp [signalCalls, hs, List.filterMap_append, ih]

/-- Receiving a list of signals and then the exit: the signals before the exit. -/
theorem signalsBeforeExit_append (err : Option String) (later : List Received) :
    ∀ signals : List Signal,
      signalsBeforeExit (signals.map Received.signal ++ Received.exited err :: later) = signals
  | [] => rfl
  | sig :: rest => by
    simp [signalsBeforeExit, signalsBeforeExit_append err later rest]

/-- Receiving a list of signals and then the exit: the exit status. -/
theorem exitStatus_append (err : Option String) (later : List Received) :
    ∀ signals : List Signal,
      exitStatus (signals.map Received.signal ++ Received.exited err :: later) = some err
  | [] => rfl
  | sig :: rest => by
    simp [exitStatus, exitStatus_append err later rest]

/-- A `Finish` found in a list that starts with the calls made for signals lies
after those calls. -/
theorem signalCalls_append_split (logger l : Logger) (e : Option String) :
    ∀ (signals : List Signal) (tail pre post : List Call),
      signalCalls logger signals ++ tail = pre ++ Call.Finish l e :: post →
      ∃ pre2, tail = pre2 ++ Call.Finish l e :: post
  | [], tail, pre, post, h => ⟨pre, by simpa [signalCalls] using h⟩
  | sig :: rest, tail, pre, post, h => by
    by_cases hs : sig = Signal.Kill
    · have h2 : Call.Signal sig :: Call.Aborted logger :: (signalCalls logger rest ++ tail)
          = pre ++ Call.Finish l e :: post := by
        simpa [signalCalls, hs] using h
      cases pre with
      | nil => simp at h2
      | cons x pre1 =>
        cases pre1 with
        | nil => simp at h2
        | cons y pre2 =>
          simp only [List.cons_append, List.cons.injEq] at h2
          exact signalCalls_append_split logger l e rest tail pre2 post h2.2.2
    · have h2 : Call.Signal sig :: (signalCalls logger rest ++ tail)
          = pre ++ Call.Finish l e :: post := by
        simpa [signalCalls, hs] using h
      cases pre with
      | nil => simp at h2
      | cons x pre1 =>
        simp only [List.cons_append, List.cons.injEq] at h2
        exact signalCalls_append_split logger l e rest tail pre1 post h2.2

/-- C14: in every run of `Resume` in which the step tree exits (after any
signals, and whatever would arrive later), `Finish` is invoked exactly once, with
the result with which the process exited; `Resume` then returns, the only later
call being the deferred `Release`, and nothing received later is handled. -/
theorem Resume_finish_once (build : execBuild) (logger : Logger) (signals : List Signal)
    (err : Option String) (later : List Received) :
    finishCalls (Resume build logger
        (signals.map Received.signal ++ Received.exited err :: later)).calls
        = [(Logger.Session logger "finish" LagerData.none, err)]
      ∧ (Resume build logger
          (signals.map Received.signal ++ Received.exited err :: later)).returned = true
      ∧ (Resume build logger
          (signals.map Received.signal ++ Received.exited err :: later)).calls
        = [Call.Using (buildStep build build.metadata.Plan logger), Call.Background, Call.Wait]
            ++ signalCalls logger signals
            ++ [Call.Finish (Logger.Session logger "finish" LagerData.none) err, Call.Release]
      ∧ forwardedSignals (Resume build logger
          (signals.map Received.signal ++ Received.exited err :: later)).calls = signals := by
  have hcalls := Resume_calls_eq build logger
    (signals.map Received.signal ++ Received.exited err :: later)
  rw [signalsBeforeExit_append, exitStatus_append] at hcalls
  have hf := finishCalls_signalCalls logger signals
  have hs := forwardedSignals_signalCalls logger signals
  refine ⟨?_, ?_, ?_, ?_⟩
  · rw [hcalls]
    unfold finishCalls at hf ⊢
    simp [List.filterMap_append, hf]
  · rw [Resume_returned_eq, exitStatus_append]
    rfl
  · rw [hcalls]
    simp
  · rw [hcalls]
    unfold forwardedSignals at hs ⊢
    simp [List.filterMap_append, hs]

/-- C15: in every run of `Resume`, nothing but the deferred `Release` follows an
invocation of `Finish`; in particular `Aborted` is never invoked after it. -/
theorem Resume_aborted_before_finish (build : execBuild) (logger : Logger)
    (received : List Received) (pre post : List Call) (l : Logger) (e : Option String)
    (h : (Resume build logger received).calls = pre ++ Call.Finish l e :: post) :
    abortedCalls post = 0 ∧ post = [Call.Release] := by
  rw [Resume_calls_eq] at h
  have hpost : post = [Call.Release] := by
    cases pre with
    | nil => simp at h
    | cons x1 pre1 =>
      cases pre1 with
      | nil => simp at h
      | cons x2 pre2 =>
        cases pre2 with
        | nil => simp at h
        | cons x3 pre3 =>
          simp only [List.cons_append, List.nil_append, List.cons.injEq] at h
          obtain ⟨pre4, h4⟩ := signalCalls_append_split logger l e _ _ pre3 post h.2.2.2
          cases hx : exitStatus received with
          | none => rw [hx] at h4; simp at h4
          | some err =>
            rw [hx] at h4
            cases pre4 with
            | nil =>
              simp only [List.nil_append, List.cons.injEq] at h4
              exact h4.2.symm
            | cons y1 pre5 =>
              cases pre5 with
              | nil => simp at h4
              | cons y2 pre6 => simp at h4
  subst hpost
  exact ⟨rfl, rfl⟩

/-- C15 at a concrete input: two kills, then the exit. -/
theorem Resume_aborted_before_finish_witness :
    (Resume (CreateBuild exampleModel Plan.empty).1 [] (killsThenExit 2 none)).calls
        = [Call.Using Step.Identity, Call.Background, Call.Wait, Call.Signal Signal.Kill,
            Call.Aborted [], Call.Signal Signal.Kill, Call.Aborted []]
          ++ Call.Finish (Logger.Session [] "finish" LagerData.none) none :: [Call.Release]
      ∧ abortedCalls [Call.Release] = 0 :=
  ⟨rfl, (Resume_aborted_before_finish (CreateBuild exampleModel Plan.empty).1 []
    (killsThenExit 2 none)
    [Call.Using Step.Identity, Call.Background, Call.Wait, Call.Signal Signal.Kill,
      Call.Aborted [], Call.Signal Signal.Kill, Call.Aborted []]
    [Call.Release] (Logger.Session [] "finish" LagerData.none) none rfl).1⟩

/-- C16: every run of `Resume` that returns, whatever signals it received and
whatever the exit status, invokes `Release` exactly once, as its last call,
right after `Finish`. -/
theorem Resume_release_once (build : execBuild) (logger : Logger) (received : List Received)
    (h : (Resume build logger received).returned = true) :
    releaseCalls (Resume build logger received).calls = 1
      ∧ ∃ pre l e, (Resume build logger received).calls
            = pre ++ [Call.Finish l e, Call.Release]
          ∧ releaseCalls pre = 0 := by
  rw [Resume_returned_eq] at h
  obtain ⟨err, herr⟩ := Option.isSome_iff_exists.mp h
  have hr := releaseCalls_signalCalls logger (signalsBeforeExit received)
  have hpre : releaseCalls
      ([Call.Using (buildStep build build.metadata.Plan logger), Call.Background, Call.Wait]
        ++ signalCalls logger (signalsBeforeExit received)) = 0 := by
    unfold releaseCalls at hr ⊢
    simp [List.filter_append, hr]
  have hcalls : (Resume build logger received).calls
      = ([Call.Using (buildStep build build.metadata.Plan logger), Call.Background, Call.Wait]
          ++ signalCalls logger (signalsBeforeExit received))
        ++ [Call.Finish (Logger.Session logger "finish" LagerData.none) err, Call.Release] := by
    rw [Resume_calls_eq, herr]
    simp
  refine ⟨?_, _, _, _, hcalls, hpre⟩
  rw [hcalls]
  unfold releaseCalls at hpre ⊢
  rw [List.filter_append, List.length_append, hpre]
  rfl

/-- C16 at a concrete input: two kills, then an exit with an error. -/
theorem Resume_release_once_witness :
    (Resume (CreateBuild exampleModel examplePlan).1 []
        (killsThenExit 2 (some "exit status 1"))).returned = true
      ∧ releaseCalls (Resume (CreateBuild exampleModel examplePlan).1 []
          (killsThenExit 2 (some "exit status 1"))).calls = 1 :=
  ⟨rfl, (Resume_release_once (CreateBuild exampleModel examplePlan).1 []
    (killsThenExit 2 (some "exit status 1")) rfl).1⟩

/-- C17: in every run of `Resume`, the signals passed to `process.Signal` are
exactly the signals received before the step tree exits, once each and in the
order received. -/
theorem Resume_forwards_signals (build : execBuild) (logger : Logger)
    (received : List Received) :
    forwardedSignals (Resume build logger received).calls = signalsBeforeExit received := by
  have hs := forwardedSignals_signalCalls logger (signalsBeforeExit received)
  rw [Resume_calls_eq]
  unfold forwardedSignals at hs ⊢
  cases exitStatus received <;> simp [List.filterMap_append, hs]

/-! ## Structure of the compiled tree -/

/-- The aggregate loop compiles every entry under its own name. -/
theorem buildAggregate_eq_map (build : execBuild) (logger : Logger) :
    ∀ entries : List (String × Plan),
      buildAggregate build entries logger
        = entries.map fun entry =>
            (entry.1, buildStep build entry.2 (Logger.Session logger entry.1 LagerData.none))
  | [] => by simp [buildAggregate]
  | (name, innerPlan) :: rest => by
    simp [buildAggregate, buildAggregate_eq_map build logger rest]

/-- Looking a name up among the compiled children is compiling the plan child
stored under that name. -/
theorem lookup_buildAggregate (build : execBuild) (logger : Logger) (name : String) :
    ∀ entries : List (String × Plan),
      (buildAggregate build entries logger).lookup name
        = (entries.lookup name).map fun innerPlan =>
            buildStep build innerPlan (Logger.Session logger name LagerData.none)
  | [] => by simp [buildAggregate]
  | (key, innerPlan) :: rest => by
    have ih := lookup_buildAggregate build logger name rest
    by_cases hk : name = key
    · subst hk
      simp [buildAggregate, List.lookup]
    · have hne : (name == key) = false := by simpa using hk
      simp [buildAggregate, List.lookup, hne, ih]

/-- C18: an Aggregate plan node compiles to an aggregate step with the same child
names as the plan's mapping, entry by entry, and under each name the child step
is the compilation of the plan child stored under that name. -/
theorem buildStep_aggregate (build : execBuild) (entries : List (String × Plan))
    (compose : Option (Plan × Plan)) (conditional : Option (Conditions × Plan))
    (execute : Option ExecutePlan) (get : Option GetPlan) (put : Option PutPlan)
    (logger : Logger) :
    ∃ steps,
      buildStep build (Plan.mk (some entries) compose conditional execute get put) logger
          = Step.Aggregate steps
        ∧ steps.map Prod.fst = entries.map Prod.fst
        ∧ (∀ name, name ∈ steps.map Prod.fst ↔ name ∈ entries.map Prod.fst)
        ∧ (∀ name, steps.lookup name
            = (entries.lookup name).map fun innerPlan =>
                buildStep build innerPlan
                  (Logger.Session (Logger.Session logger "aggregate" LagerData.none) name
                    LagerData.none))
        ∧ steps = entries.map fun entry =>
            (entry.1, buildStep build entry.2
              (Logger.Session (Logger.Session logger "aggregate" LagerData.none) entry.1
                LagerData.none)) := by
  refine ⟨buildAggregate build entries (Logger.Session logger "aggregate" LagerData.none),
    by simp [buildStep], ?_, ?_, ?_, ?_⟩
  · rw [buildAggregate_eq_map]
    simp [List.map_map, Function.comp_def]
  · intro name
    rw [buildAggregate_eq_map]
    simp [List.map_map, Function.comp_def]
  · intro name
    exact lookup_buildAggregate build _ name entries
  · exact buildAggregate_eq_map build _ entries

mutual
/-- With at most one payload per node, compiling yields one step per plan node. -/
theorem stepNodes_buildStep (build : execBuild) :
    ∀ (plan : Plan) (logger : Logger), singlePayload plan = true →
      stepNodes (buildStep build plan logger) = planNodes plan
  | Plan.mk (some aggregate) compose conditional _ _ _, logger, h => by
    simp only [singlePayload, Bool.and_eq_true, decide_eq_true_eq] at h
    obtain ⟨⟨⟨hcount, ha⟩, _⟩, _⟩ := h
    cases compose with
    | some c => simp at hcount; omega
    | none =>
      cases conditional with
      | some d => simp at hcount; omega
      | none =>
        simp only [aggregateSingle] at ha
        simp [buildStep, stepNodes, planNodes, aggregateNodes, composeNodes, conditionalNodes,
          stepNodes_buildAggregate build aggregate _ ha]
  | Plan.mk none (some (A, B)) conditional _ _ _, logger, h => by
    simp only [singlePayload, Bool.and_eq_true, decide_eq_true_eq] at h
    obtain ⟨⟨⟨hcount, _⟩, hc⟩, _⟩ := h
    cases conditional with
    | some d => simp at hcount; omega
    | none =>
      simp only [composeSingle, Bool.and_eq_true] at hc
      simp [buildStep, stepNodes, planNodes, aggregateNodes, composeNodes, conditionalNodes,
        stepNodes_buildStep build A logger hc.1, stepNodes_buildStep build B logger hc.2,
        Nat.add_assoc]
  | Plan.mk none none (some (conditions, plan)) _ _ _, logger, h => by
    simp only [singlePayload, Bool.and_eq_true, decide_eq_true_eq] at h
    obtain ⟨⟨⟨_, _⟩, _⟩, hd⟩ := h
    simp only [conditionalSingle] at hd
    simp [buildStep, stepNodes, planNodes, aggregateNodes, composeNodes, conditionalNodes,
      stepNodes_buildStep build plan _ hd]
  | Plan.mk none none none (some execute) _ _, logger, _ => by
    simp only [buildStep, planNodes, aggregateNodes, composeNodes, conditionalNodes]
    split <;> rfl
  | Plan.mk none none none none (some get) _, logger, _ => by
    simp [buildStep, stepNodes, planNodes, aggregateNodes, composeNodes, conditionalNodes]
  | Plan.mk none none none none none (some put), logger, _ => by
    simp [buildStep, stepNodes, planNodes, aggregateNodes, composeNodes, conditionalNodes]
  | Plan.mk none none none none none none, logger, _ => by
    simp [buildStep, stepNodes, planNodes, aggregateNodes, composeNodes, conditionalNodes]
/-- With at most one payload per node, the compiled children of an aggregate
have one step per plan node. -/
theorem stepNodes_buildAggregate (build : execBuild) :
    ∀ (entries : List (String × Plan)) (logger : Logger), entriesSingle entries = true →
      stepNodesAggregate (buildAggregate build entries logger) = entriesNodes entries
  | [], _, _ => by simp [buildAggregate, stepNodesAggregate, entriesNodes]
  | (name, innerPlan) :: rest, logger, h => by
    simp only [entriesSingle, Bool.and_eq_true] at h
    simp [buildAggregate, stepNodesAggregate, entriesNodes,
      stepNodes_buildStep build innerPlan _ h.1, stepNodes_buildAggregate build rest logger h.2]
end

/-- C19: for every plan in which each node has at most one non-nil payload, the
compiled tree has exactly one step per plan node, and the same child structure:
an Aggregate node gives an aggregate step holding, under each child name, the
compilation of that child; a Compose node gives the composition of the
compilation of A, then of B; a Conditional node gives a conditional step with
the plan's conditions around the compilation of its inner plan. -/
theorem buildStep_one_to_one (build : execBuild) (plan : Plan) (logger : Logger)
    (h : singlePayload plan = true) :
    stepNodes (buildStep build plan logger) = planNodes plan
      ∧ (∀ entries, plan = Plan.mk (some entries) none none none none none →
          buildStep build plan logger
            = Step.Aggregate (entries.map fun entry =>
                (entry.1, buildStep build entry.2
                  (Logger.Session (Logger.Session logger "aggregate" LagerData.none) entry.1
                    LagerData.none))))
      ∧ (∀ A B, plan = Plan.mk none (some (A, B)) none none none none →
          buildStep build plan logger
            = Step.Compose (buildStep build A logger) (buildStep build B logger))
      ∧ (∀ conditions inner, plan = Plan.mk none none (some (conditions, inner)) none none none →
          buildStep build plan logger
            = Step.Conditional conditions
                (buildStep build inner
                  (Logger.Session logger "conditional" (LagerData.on conditions)))) := by
  refine ⟨stepNodes_buildStep build plan logger h, ?_, ?_, ?_⟩
  · intro entries hp
    subst hp
    simp [buildStep, buildAggregate_eq_map]
  · intro A B hp
    subst hp
    simp [buildStep]
  · intro conditions inner hp
    subst hp
    simp [buildStep]

/-- C19 at a concrete input: `Compose(Get repo, Execute build.yml)`. -/
theorem buildStep_one_to_one_witness :
    singlePayload examplePlan = true
      ∧ stepNodes (buildStep (CreateBuild exampleModel examplePlan).1 examplePlan []) = 3
      ∧ planNodes examplePlan = 3 :=
  ⟨rfl, (buildStep_one_to_one (CreateBuild exampleModel examplePlan).1 examplePlan [] rfl).1,
    rfl⟩

/-! ## Session keys of the execute role -/

/-- C20: `Hijack` passes to the execution backend the build's execute-role
session key `build-<id>-execute`, together with the caller's streams and spec;
a factory Execute step compiled from an Execute node (with no earlier payload)
carries that same key and the node's privileged flag. -/
theorem Hijack_session_key {α : Type}
    (factoryHijack : SessionID → IOConfig → HijackProcessSpec → α) (build : execBuild)
    (spec : HijackProcessSpec) ( io : HijackProcessIO) (execute : ExecutePlan)
    (get : Option GetPlan) (put : Option PutPlan) (logger : Logger) :
    Hijack factoryHijack build spec io
        = factoryHijack ("build-" ++ toString build.buildID ++ "-execute")
            { Stdin := io.Stdin, Stdout := io.Stdout, Stderr := io.Stderr } spec
      ∧ Hijack (fun sessionID _ _ => sessionID) build spec io = executeSessionID build
      ∧ (∀ sessionID delegate privileged configSource,
          buildStep build (Plan.mk none none none (some execute) get put) logger
              = Step.Execute sessionID delegate privileged configSource →
            sessionID = Hijack (fun sessionID _ _ => sessionID) build spec io
              ∧ sessionID = "build-" ++ toString build.buildID ++ "-execute"
              ∧ privileged = execute.Privileged) := by
  refine ⟨rfl, rfl, ?_⟩
  intro sessionID delegate privileged configSource hstep
  simp only [buildStep] at hstep
  split at hstep <;> simp at hstep <;> simp [Hijack, executeSessionID, ← hstep.1, ← hstep.2.2.1]

/-! ## Get and Put nodes, and precedence among payloads -/

/-- C22: a Get node with no earlier payload compiles to the factory Get step
called with the session key `build-<id>-input-<name>` for the node's name, the
input delegate for the node, the resource config with the node's resource name,
type and source, the node's params, and the node's version as it is. -/
theorem buildStep_get (build : execBuild) (get : GetPlan) (put : Option PutPlan)
    (logger : Logger) :
    buildStep build (Plan.mk none none none none (some get) put) logger
        = Step.Get ("build-" ++ toString build.buildID ++ "-input-" ++ get.Name)
            (StepDelegate.InputDelegate build.delegate
              (Logger.Session logger "get" (LagerData.name get.Name)) get)
            { Name := get.Resource, Type_ := get.Type_, Source := get.Source }
            get.Params get.Version
      ∧ inputSessionID build get.Name
        = "build-" ++ toString build.buildID ++ "-input-" ++ get.Name := by
  simp [buildStep, inputSessionID]

/-- C23: a Put node with no earlier payload compiles to the factory Put step
called with the session key `build-<id>-output-<name>` for the node's resource
name, the output delegate for the node, the resource config with the node's
resource name, type and source, and the node's params as they are. -/
theorem buildStep_put (build : execBuild) (put : PutPlan) (logger : Logger) :
    buildStep build (Plan.mk none none none none none (some put)) logger
        = Step.Put ("build-" ++ toString build.buildID ++ "-output-" ++ put.Resource)
            (StepDelegate.OutputDelegate build.delegate
              (Logger.Session logger "put" (LagerData.name put.Resource)) put)
            { Name := put.Resource, Type_ := put.Type_, Source := put.Source }
            put.Params
      ∧ outputSessionID build put.Resource
        = "build-" ++ toString build.buildID ++ "-output-" ++ put.Resource := by
  simp [buildStep, outputSessionID]

/-- C25: first match wins. Every plan node compiles to what the node with only
its first non-nil payload (in the order Aggregate, Compose, Conditional,
Execute, Get, Put) compiles to, so later payloads contribute nothing; and an
Execute payload with neither inline config nor config path compiles to Identity
whatever the Get and Put payloads are. -/
theorem buildStep_first_match (build : execBuild) (plan : Plan) (logger : Logger) :
    buildStep build plan logger = buildStep build (firstPayload plan) logger
      ∧ (∀ (execute : ExecutePlan) (get : Option GetPlan) (put : Option PutPlan),
          plan = Plan.mk none none none (some execute) get put →
          execute.Config = none → execute.ConfigPath = "" →
          buildStep build plan logger = Step.Identity) := by
  constructor
  · match plan with
    | Plan.mk (some aggregate) _ _ _ _ _ => simp [firstPayload, buildStep]
    | Plan.mk none (some (A, B)) _ _ _ _ => simp [firstPayload, buildStep]
    | Plan.mk none none (some (conditions, inner)) _ _ _ => simp [firstPayload, buildStep]
    | Plan.mk none none none (some execute) _ _ => simp [firstPayload, buildStep]
    | Plan.mk none none none none (some get) _ => simp [firstPayload, buildStep]
    | Plan.mk none none none none none (some put) => simp [firstPayload, buildStep]
    | Plan.mk none none none none none none => simp [firstPayload, buildStep]
  · intro execute get put hp hc hpath
    subst hp
    simp [buildStep, hc, hpath]

/-! ## Session keys across the tree and across drivers -/

mutual
/-- Every factory Execute step of a compiled tree carries the build's execute
key. -/
theorem executeKeys_buildStep (build : execBuild) :
    ∀ (plan : Plan) (logger : Logger) (key : SessionID),
      key ∈ executeKeys (buildStep build plan logger) → key = executeSessionID build
  | Plan.mk (some aggregate) _ _ _ _ _, logger, key, h => by
    simp only [buildStep, executeKeys] at h
    exact executeKeys_buildAggregate build aggregate _ key h
  | Plan.mk none (some (A, B)) _ _ _ _, logger, key, h => by
    simp only [buildStep, executeKeys, List.mem_append] at h
    cases h with
    | inl hA => exact executeKeys_buildStep build A logger key hA
    | inr hB => exact executeKeys_buildStep build B logger key hB
  | Plan.mk none none (some (conditions, plan)) _ _ _, logger, key, h => by
    simp only [buildStep, executeKeys] at h
    exact executeKeys_buildStep build plan _ key h
  | Plan.mk none none none (some execute) _ _, logger, key, h => by
    simp only [buildStep] at h
    split at h <;> simp [executeKeys] at h <;> exact h
  | Plan.mk none none none none (some get) _, logger, key, h => by
    simp [buildStep, executeKeys] at h
  | Plan.mk none none none none none (some put), logger, key, h => by
    simp [buildStep, executeKeys] at h
  | Plan.mk none none none none none none, logger, key, h => by
    simp [buildStep, executeKeys] at h
/-- Every factory Execute step below a compiled aggregate carries the build's
execute key. -/
theorem executeKeys_buildAggregate (build : execBuild) :
    ∀ (entries : List (String × Plan)) (logger : Logger) (key : SessionID),
      key ∈ executeKeysAggregate (buildAggregate build entries logger) →
      key = executeSessionID build
  | [], _, key, h => by simp [buildAggregate, executeKeysAggregate] at h
  | (name, innerPlan) :: rest, logger, key, h => by
    simp only [buildAggregate, executeKeysAggregate, List.mem_append] at h
    cases h with
    | inl h1 => exact executeKeys_buildStep build innerPlan _ key h1
    | inr h2 => exact executeKeys_buildAggregate build rest logger key h2
end

/-- C28: in the tree compiled for a build, every factory Execute step carries the
same session key, the build's `build-<id>-execute`, wherever its node sits in
the plan and whatever its configuration; so any two Execute steps of one build
have equal keys. -/
theorem buildStep_execute_keys_equal (build : execBuild) (plan : Plan) (logger : Logger) :
    (∀ key, key ∈ executeKeys (buildStep build plan logger) →
        key = "build-" ++ toString build.buildID ++ "-execute")
      ∧ (∀ key1 key2, key1 ∈ executeKeys (buildStep build plan logger) →
          key2 ∈ executeKeys (buildStep build plan logger) → key1 = key2) := by
  constructor
  · intro key h
    exact executeKeys_buildStep build plan logger key h
  · intro key1 key2 h1 h2
    rw [executeKeys_buildStep build plan logger key1 h1,
      executeKeys_buildStep build plan logger key2 h2]

mutual
/-- The session keys of a compiled tree depend on the build only through its
identity, and not on the logger. -/
theorem sessionKeys_buildStep (build1 build2 : execBuild)
    (hid : build1.buildID = build2.buildID) :
    ∀ (plan : Plan) (logger1 logger2 : Logger),
      sessionKeys (buildStep build1 plan logger1) = sessionKeys (buildStep build2 plan logger2)
  | Plan.mk (some aggregate) _ _ _ _ _, logger1, logger2 => by
    simp only [buildStep, sessionKeys]
    exact sessionKeys_buildAggregate build1 build2 hid aggregate _ _
  | Plan.mk none (some (A, B)) _ _ _ _, logger1, logger2 => by
    simp only [buildStep, sessionKeys]
    rw [sessionKeys_buildStep build1 build2 hid A logger1 logger2,
      sessionKeys_buildStep build1 build2 hid B logger1 logger2]
  | Plan.mk none none (some (conditions, plan)) _ _ _, logger1, logger2 => by
    simp only [buildStep, sessionKeys]
    exact sessionKeys_buildStep build1 build2 hid plan _ _
  | Plan.mk none none none (some execute) _ _, logger1, logger2 => by
    simp only [buildStep]
    split <;> simp [sessionKeys, executeSessionID, hid]
  | Plan.mk none none none none (some get) _, logger1, logger2 => by
    simp [buildStep, sessionKeys, inputSessionID, hid]
  | Plan.mk none none none none none (some put), logger1, logger2 => by
    simp [buildStep, sessionKeys, outputSessionID, hid]
  | Plan.mk none none none none none none, logger1, logger2 => by
    simp [buildStep, sessionKeys]
/-- The session keys below a compiled aggregate depend on the build only through
its identity. -/
theorem sessionKeys_buildAggregate (build1 build2 : execBuild)
    (hid : build1.buildID = build2.buildID) :
    ∀ (entries : List (String × Plan)) (logger1 logger2 : Logger),
      sessionKeysAggregate (buildAggregate build1 entries logger1)
        = sessionKeysAggregate (buildAggregate build2 entries logger2)
  | [], _, _ => by simp [buildAggregate, sessionKeysAggregate]
  | (name, innerPlan) :: rest, logger1, logger2 => by
    simp only [buildAggregate, sessionKeysAggregate]
    rw [sessionKeys_buildStep build1 build2 hid innerPlan _
        (Logger.Session logger2 name LagerData.none),
      sessionKeys_buildAggregate build1 build2 hid rest logger1 logger2]
end

/-- The three key functions of a build are the key of the specification at the
build's identity. -/
theorem sessionKey_eq (build : execBuild) :
    executeSessionID build = sessionKey build.buildID Role.execute
      ∧ (∀ name, inputSessionID build name = sessionKey build.buildID (Role.input name))
      ∧ (∀ name, outputSessionID build name = sessionKey build.buildID (Role.output name)) :=
  ⟨rfl, fun _ => rfl, fun _ => rfl⟩

mutual
/-- The session keys of a compiled tree are the keys, at the build's identity, of
the roles and names of the plan's nodes. -/
theorem sessionKeys_eq_roles (build : execBuild) :
    ∀ (plan : Plan) (logger : Logger),
      sessionKeys (buildStep build plan logger)
        = (planRoles plan).map (sessionKey build.buildID)
  | Plan.mk (some aggregate) _ _ _ _ _, logger => by
    simp only [buildStep, sessionKeys, planRoles]
    exact sessionKeysAggregate_eq_roles build aggregate _
  | Plan.mk none (some (A, B)) _ _ _ _, logger => by
    simp only [buildStep, sessionKeys, planRoles, List.map_append]
    rw [sessionKeys_eq_roles build A logger, sessionKeys_eq_roles build B logger]
  | Plan.mk none none (some (conditions, plan)) _ _ _, logger => by
    simp only [buildStep, sessionKeys, planRoles]
    exact sessionKeys_eq_roles build plan _
  | Plan.mk none none none (some execute) _ _, logger => by
    simp only [buildStep, planRoles]
    cases hc : execute.Config <;> by_cases hp : execute.ConfigPath = "" <;>
      simp [hp, sessionKeys, sessionKey, executeSessionID]
  | Plan.mk none none none none (some get) _, logger => by
    simp [buildStep, sessionKeys, planRoles, sessionKey, inputSessionID]
  | Plan.mk none none none none none (some put), logger => by
    simp [buildStep, sessionKeys, planRoles, sessionKey, outputSessionID]
  | Plan.mk none none none none none none, logger => by
    simp [buildStep, sessionKeys, planRoles]
/-- The session keys below a compiled aggregate are the keys of the roles and
names of its children. -/
theorem sessionKeysAggregate_eq_roles (build : execBuild) :
    ∀ (entries : List (String × Plan)) (logger : Logger),
      sessionKeysAggregate (buildAggregate build entries logger)
        = (entriesRoles entries).map (sessionKey build.buildID)
  | [], _ => by simp [buildAggregate, sessionKeysAggregate, entriesRoles]
  | (name, innerPlan) :: rest, logger => by
    simp only [buildAggregate, sessionKeysAggregate, entriesRoles, List.map_append]
    rw [sessionKeys_eq_roles build innerPlan _, sessionKeysAggregate_eq_roles build rest logger]
end

/-- C21: let `payload` be the `Metadata()` string of `CreateBuild(model, P)` and
let `LookupBuild` succeed on the model with the same identity and that payload.
The looked-up driver holds the plan unmarshalled from the payload and has the
same build identity. Both drivers give every compiled Execute, Get and Put node
the key that is a function of the build identity, the role and the name only:
the keys of the tree compiled from P, and of the tree compiled from the
persisted plan, are the keys of the roles and names of their nodes. Hence nodes
that correspond (same position among the compiled nodes, same role, same name)
get identical keys, the two trees get the same keys whenever the persisted plan
has the roles and names of P, and any one plan node gets the same keys from both
drivers. -/
theorem session_keys_across_drivers (codec : Codec) (model : DBBuild) (plan : Plan)
    (payload : String) (looked : execBuild)
    (hM : Metadata codec (CreateBuild model plan).1 = some payload)
    (hL : LookupBuild codec { ID := model.ID, EngineMetadata := payload } = Except.ok looked) :
    codec.Marshal { Plan := plan } = Except.ok payload
      ∧ codec.Unmarshal payload = Except.ok looked.metadata
      ∧ looked.buildID = model.ID
      ∧ (CreateBuild model plan).1.buildID = model.ID
      ∧ (∀ logger, sessionKeys (buildStep (CreateBuild model plan).1 plan logger)
          = (planRoles plan).map (sessionKey model.ID))
      ∧ (∀ logger, sessionKeys (buildStep looked looked.metadata.Plan logger)
          = (planRoles looked.metadata.Plan).map (sessionKey model.ID))
      ∧ (∀ (i : Nat) (role : Role) (logger1 logger2 : Logger),
          (planRoles plan)[i]? = some role →
          (planRoles looked.metadata.Plan)[i]? = some role →
          (sessionKeys (buildStep (CreateBuild model plan).1 plan logger1))[i]?
              = some (sessionKey model.ID role)
            ∧ (sessionKeys (buildStep looked looked.metadata.Plan logger2))[i]?
              = some (sessionKey model.ID role))
      ∧ (planRoles looked.metadata.Plan = planRoles plan →
          ∀ logger1 logger2,
            sessionKeys (buildStep (CreateBuild model plan).1 plan logger1)
              = sessionKeys (buildStep looked looked.metadata.Plan logger2))
      ∧ (∀ (node : Plan) (logger1 logger2 : Logger),
          sessionKeys (buildStep (CreateBuild model plan).1 node logger1)
            = sessionKeys (buildStep looked node logger2)) := by
  have hmarshal : codec.Marshal { Plan := plan } = Except.ok payload := by
    unfold Metadata CreateBuild at hM
    simp only at hM
    split at hM
    · simp at hM
    · rename_i p hp
      simp only [Option.some.injEq] at hM
      rw [hp, hM]
  have hlooked : codec.Unmarshal payload = Except.ok looked.metadata
      ∧ looked.buildID = model.ID := by
    unfold LookupBuild at hL
    simp only at hL
    split at hL
    · simp at hL
    · rename_i metadata hm
      simp only [Except.ok.injEq] at hL
      rw [← hL]
      exact ⟨hm, rfl⟩
  have hcreated : (CreateBuild model plan).1.buildID = model.ID := rfl
  have hk1 : ∀ logger, sessionKeys (buildStep (CreateBuild model plan).1 plan logger)
      = (planRoles plan).map (sessionKey model.ID) := by
    intro logger
    rw [sessionKeys_eq_roles, hcreated]
  have hk2 : ∀ logger, sessionKeys (buildStep looked looked.metadata.Plan logger)
      = (planRoles looked.metadata.Plan).map (sessionKey model.ID) := by
    intro logger
    rw [sessionKeys_eq_roles, hlooked.2]
  refine ⟨hmarshal, hlooked.1, hlooked.2, hcreated, hk1, hk2, ?_, ?_, ?_⟩
  · intro i role logger1 logger2 h1 h2
    rw [hk1, hk2]
    simp [List.getElem?_map, h1, h2]
  · intro hroles logger1 logger2
    rw [hk1, hk2, hroles]
  · intro node logger1 logger2
    exact sessionKeys_buildStep _ _ (hcreated.trans hlooked.2.symm) node logger1 logger2

/-- C21 at a concrete input: `Compose(Get repo, Execute build.yml)` persisted and
looked up; both drivers give its Get node `build-42-input-repo` and its Execute
node `build-42-execute`. -/
theorem session_keys_across_drivers_witness :
    sessionKeys (buildStep (CreateBuild exampleModel examplePlan).1 examplePlan [])
        = ["build-42-input-repo", "build-42-execute"]
      ∧ sessionKeys (buildStep
          { buildID := 42, delegate := 42, metadata := { Plan := examplePlan },
            signals := makeChan 1 } examplePlan [])
        = ["build-42-input-repo", "build-42-execute"] :=
  have h := session_keys_across_drivers examplePlanCodec exampleModel examplePlan
    examplePlanPayload
    { buildID := 42, delegate := 42, metadata := { Plan := examplePlan },
      signals := makeChan 1 } rfl rfl
  ⟨(h.2.2.2.2.1 []).trans (by decide), (h.2.2.2.2.2.1 []).trans (by decide)⟩

/-! ## Session keys are injective -/

/-- The accumulator of `Nat.toDigitsCore` is a suffix of its result. -/
theorem toDigitsCore_acc (fuel : Nat) : ∀ (n : Nat) (ds : List Char),
    Nat.toDigitsCore 10 fuel n ds = Nat.toDigitsCore 10 fuel n [] ++ ds := by
  induction fuel with
  | zero => intro n ds; simp [Nat.toDigitsCore]
  | succ fuel ih =>
    intro n ds
    simp only [Nat.toDigitsCore]
    split_ifs with h
    · simp
    · rw [ih (n / 10) (Nat.digitChar (n % 10) :: ds), ih (n / 10) [Nat.digitChar (n % 10)]]
      simp

/-- A decimal digit character has the value of its digit. -/
theorem digitValue_digitChar (k : Nat) (h : k < 10) : digitValue (Nat.digitChar k) = k := by
  interval_cases k <;> rfl

/-- A decimal digit character is not the dash. -/
theorem digitChar_ne_dash (k : Nat) (h : k < 10) : Nat.digitChar k ≠ '-' := by
  interval_cases k <;> decide

/-- Appending one digit multiplies the value by ten and adds the digit. -/
theorem decimalValue_append (l : List Char) (c : Char) :
    decimalValue (l ++ [c]) = 10 * decimalValue l + digitValue c := by
  simp [decimalValue, List.foldl_append]

/-- The decimal digits of `n`: they denote `n`, contain no dash, and are not
empty. -/
theorem toDigitsCore_spec (fuel : Nat) : ∀ n, n < fuel →
    decimalValue (Nat.toDigitsCore 10 fuel n []) = n
      ∧ (∀ c ∈ Nat.toDigitsCore 10 fuel n [], c ≠ '-')
      ∧ Nat.toDigitsCore 10 fuel n [] ≠ [] := by
  induction fuel with
  | zero => intro n h; omega
  | succ fuel ih =>
    intro n h
    have hmod : n % 10 < 10 := Nat.mod_lt _ (by decide)
    simp only [Nat.toDigitsCore]
    split_ifs with h0
    · refine ⟨?_, ?_, by simp⟩
      · have hone : decimalValue [Nat.digitChar (n % 10)]
            = digitValue (Nat.digitChar (n % 10)) := by
          simp [decimalValue]
        rw [hone, digitValue_digitChar _ hmod]
        omega
      · intro c hc
        simp at hc
        rw [hc]
        exact digitChar_ne_dash _ hmod
    · have hlt : n / 10 < fuel := by omega
      obtain ⟨h1, h2, _⟩ := ih (n / 10) hlt
      rw [toDigitsCore_acc]
      refine ⟨?_, ?_, by simp⟩
      · rw [decimalValue_append, h1, digitValue_digitChar _ hmod]
        omega
      · intro c hc
        simp only [List.mem_append, List.mem_singleton] at hc
        cases hc with
        | inl hc => exact h2 c hc
        | inr hc => rw [hc]; exact digitChar_ne_dash _ hmod

/-- Distinct numbers have distinct decimal digits. -/
theorem toDigits_injective (a b : Nat) (h : Nat.toDigits 10 a = Nat.toDigits 10 b) : a = b := by
  have ha := (toDigitsCore_spec (a + 1) a (Nat.lt_succ_self a)).1
  have hb := (toDigitsCore_spec (b + 1) b (Nat.lt_succ_self b)).1
  unfold Nat.toDigits at h
  rw [h] at ha
  omega

/-- No dash among the decimal digits of a number. -/
theorem toDigits_no_dash (a : Nat) : '-' ∉ Nat.toDigits 10 a := fun hm =>
  (toDigitsCore_spec (a + 1) a (Nat.lt_succ_self a)).2.1 '-' hm rfl

/-- The decimal digits of a number are not empty. -/
theorem toDigits_ne_nil (a : Nat) : Nat.toDigits 10 a ≠ [] :=
  (toDigitsCore_spec (a + 1) a (Nat.lt_succ_self a)).2.2

/-- The characters of a non-negative build identity printed with `%d`. -/
theorem int_data_ofNat (n : Nat) : (toString (Int.ofNat n)).data = Nat.toDigits 10 n := rfl

/-- The characters of a negative build identity printed with `%d`. -/
theorem int_data_negSucc (n : Nat) :
    (toString (Int.negSucc n)).data = '-' :: Nat.toDigits 10 (n + 1) := rfl

/-- The first occurrence of a separator splits a list in one way only. -/
theorem append_sep_cancel {α : Type} (sep : α) :
    ∀ (xs ys r1 r2 : List α), sep ∉ xs → sep ∉ ys →
      xs ++ sep :: r1 = ys ++ sep :: r2 → xs = ys ∧ r1 = r2
  | [], [], r1, r2, _, _, h => by simpa using h
  | [], y :: ys, r1, r2, _, hy, h => by
    simp only [List.nil_append, List.cons_append, List.cons.injEq] at h
    exact absurd h.1 (fun he => hy (by simp [he]))
  | x :: xs, [], r1, r2, hx, _, h => by
    simp only [List.nil_append, List.cons_append, List.cons.injEq] at h
    exact absurd h.1.symm (fun he => hx (by simp [he]))
  | x :: xs, y :: ys, r1, r2, hx, hy, h => by
    simp only [List.cons_append, List.cons.injEq] at h
    have hx2 : sep ∉ xs := fun hm => hx (List.mem_cons_of_mem _ hm)
    have hy2 : sep ∉ ys := fun hm => hy (List.mem_cons_of_mem _ hm)
    obtain ⟨h1, h2⟩ := append_sep_cancel sep xs ys r1 r2 hx2 hy2 h.2
    exact ⟨by rw [h.1, h1], h2⟩

/-- A printed build identity followed by a dash determines the identity and the
rest of the string. -/
theorem int_data_sep (i j : Int) (r1 r2 : List Char)
    (h : (toString i).data ++ '-' :: r1 = (toString j).data ++ '-' :: r2) :
    i = j ∧ r1 = r2 := by
  cases i with
  | ofNat a =>
    cases j with
    | ofNat b =>
      rw [int_data_ofNat, int_data_ofNat] at h
      obtain ⟨h1, h2⟩ :=
        append_sep_cancel '-' _ _ r1 r2 (toDigits_no_dash a) (toDigits_no_dash b) h
      exact ⟨by rw [toDigits_injective a b h1], h2⟩
    | negSucc b =>
      rw [int_data_ofNat, int_data_negSucc] at h
      cases hd : Nat.toDigits 10 a with
      | nil => exact absurd hd (toDigits_ne_nil a)
      | cons c cs =>
        rw [hd] at h
        simp only [List.cons_append, List.cons.injEq] at h
        have hmem : '-' ∈ Nat.toDigits 10 a := by rw [hd, h.1]; simp
        exact absurd hmem (toDigits_no_dash a)
  | negSucc a =>
    cases j with
    | ofNat b =>
      rw [int_data_ofNat, int_data_negSucc] at h
      cases hd : Nat.toDigits 10 b with
      | nil => exact absurd hd (toDigits_ne_nil b)
      | cons c cs =>
        rw [hd] at h
        simp only [List.cons_append, List.cons.injEq] at h
        have hmem : '-' ∈ Nat.toDigits 10 b := by rw [hd, ← h.1]; simp
        exact absurd hmem (toDigits_no_dash b)
    | negSucc b =>
      rw [int_data_negSucc, int_data_negSucc] at h
      simp only [List.cons_append, List.cons.injEq, true_and] at h
      obtain ⟨h1, h2⟩ := append_sep_cancel '-' _ _ r1 r2 (toDigits_no_dash (a + 1))
        (toDigits_no_dash (b + 1)) h
      have hab := toDigits_injective _ _ h1
      exact ⟨by simp only [Int.negSucc.injEq]; omega, h2⟩

/-- C27: session key derivation is injective. For all builds and all names
(arbitrary strings), an execute key is never an input or an output key, an input
key is never an output key, equal execute keys come from equal build identities,
and equal input keys (likewise equal output keys) come from equal build
identities and equal names. -/
theorem session_keys_injective (build1 build2 : execBuild) (m n : String) :
    executeSessionID build1 ≠ inputSessionID build2 m
      ∧ executeSessionID build1 ≠ outputSessionID build2 m
      ∧ inputSessionID build1 m ≠ outputSessionID build2 n
      ∧ (executeSessionID build1 = executeSessionID build2 → build1.buildID = build2.buildID)
      ∧ (inputSessionID build1 m = inputSessionID build2 n →
          build1.buildID = build2.buildID ∧ m = n)
      ∧ (outputSessionID build1 m = outputSessionID build2 n →
          build1.buildID = build2.buildID ∧ m = n) := by
  refine ⟨?_, ?_, ?_, ?_, ?_, ?_⟩
  · intro h
    have hd := congrArg String.data h
    simp only [executeSessionID, inputSessionID, String.data_append] at hd
    have hd2 : (toString build1.buildID).data ++ '-' :: "execute".data
        = (toString build2.buildID).data ++ '-' :: ("input-".data ++ m.data) := by
      simpa [List.append_assoc] using hd
    obtain ⟨_, h2⟩ := int_data_sep _ _ _ _ hd2
    simp at h2
  · intro h
    have hd := congrArg String.data h
    simp only [executeSessionID, outputSessionID, String.data_append] at hd
    have hd2 : (toString build1.buildID).data ++ '-' :: "execute".data
        = (toString build2.buildID).data ++ '-' :: ("output-".data ++ m.data) := by
      simpa [List.append_assoc] using hd
    obtain ⟨_, h2⟩ := int_data_sep _ _ _ _ hd2
    simp at h2
  · intro h
    have hd := congrArg String.data h
    simp only [inputSessionID, outputSessionID, String.data_append] at hd
    have hd2 : (toString build1.buildID).data ++ '-' :: ("input-".data ++ m.data)
        = (toString build2.buildID).data ++ '-' :: ("output-".data ++ n.data) := by
      simpa [List.append_assoc] using hd
    obtain ⟨_, h2⟩ := int_data_sep _ _ _ _ hd2
    simp at h2
  · intro h
    have hd := congrArg String.data h
    simp only [executeSessionID, String.data_append] at hd
    have hd2 : (toString build1.buildID).data ++ '-' :: "execute".data
        = (toString build2.buildID).data ++ '-' :: "execute".data := by
      simpa [List.append_assoc] using hd
    exact (int_data_sep _ _ _ _ hd2).1
  · intro h
    have hd := congrArg String.data h
    simp only [inputSessionID, String.data_append] at hd
    have hd2 : (toString build1.buildID).data ++ '-' :: ("input-".data ++ m.data)
        = (toString build2.buildID).data ++ '-' :: ("input-".data ++ n.data) := by
      simpa [List.append_assoc] using hd
    obtain ⟨h1, h2⟩ := int_data_sep _ _ _ _ hd2
    have h3 : m.data = n.data := by simpa using h2
    exact ⟨h1, String.ext h3⟩
  · intro h
    have hd := congrArg String.data h
    simp only [outputSessionID, String.data_append] at hd
    have hd2 : (toString build1.buildID).data ++ '-' :: ("output-".data ++ m.data)
        = (toString build2.buildID).data ++ '-' :: ("output-".data ++ n.data) := by
      simpa [List.append_assoc] using hd
    obtain ⟨h1, h2⟩ := int_data_sep _ _ _ _ hd2
    have h3 : m.data = n.data := by simpa using h2
    exact ⟨h1, String.ext h3⟩

end Engine
